import Mathlib

/-!
Verification of rpgoclient: the hierarchy tracker and retrying request executor

A shallow embedding of `client.go`, `errors.go` and `structs.go`.

* The session (`Client`) is an explicit value; every operation takes the client and the
  log of requests issued so far and hands back the updated client and log.
* The transport (`c.httpClient.Do`) and the clock (`time.Now`) belong to the environment
  (`Env`): the reply to a request may depend on how many requests were issued before it
  and on the request itself.
* `encoding/json` decoding into a result struct is a parameter (`Decoder`), one per
  response shape.
* A Go run-time panic is an explicit outcome (`Outcome.panicked`), with the client as it
  was left when the panic was raised.
-/

namespace Rpgoclient

/-! ## errors.go -/

/-- The package-level error values of `errors.go`; `other` stands for an error produced
by a library (transport, JSON codec, body close). -/
inductive GoError where
  | noLaunchIdErr
  | logNotAttachableToLaunchErr
  | responseErr
  | httpRetriesReachedErr
  | other (msg : String)
  deriving DecidableEq, Repr

/-- The text of an error, `err.Error()`. -/
def GoError.Error : GoError → String
  | .noLaunchIdErr => "launch is not started, no LaunchId"
  | .logNotAttachableToLaunchErr => "cannot attach log to launch item, only to test items"
  | .responseErr => "failed to perform request"
  | .httpRetriesReachedErr => "http max retries reached"
  | .other msg => msg

/-! ## structs.go -/

/-- A value stored in a `map[string]interface{}`; `unsupported` is a Go value that
`encoding/json` refuses to encode (a channel, a function, a complex number). -/
inductive JValue where
  | str (s : String)
  | num (n : Int)
  | bool (b : Bool)
  | unsupported
  deriving DecidableEq, Repr

/-- The `issue` argument, a `map[string]interface{}`; `none` is the nil map. -/
abbrev Issue := Option (List (String × JValue))

structure StartLaunchPayload where
  Name : String
  Description : String
  Tags : List String
  StartTime : String
  Mode : String
  deriving DecidableEq, Repr

structure StartLaunchResponse where
  Number : Int := 0
  Id : String := ""
  deriving DecidableEq, Repr

structure FinishLaunchPayload where
  Status : String
  EndTime : String
  deriving DecidableEq, Repr

structure FinishLaunchResponse where
  Id : String := ""
  Link : String := ""
  Number : Int := 0
  deriving DecidableEq, Repr

structure StartTestItemPayload where
  Name : String
  Description : String
  Tags : List String
  StartTime : String
  LaunchId : String
  Type_ : String
  Parameters : List (List (String × String))
  deriving DecidableEq, Repr

structure StartTestItemResponse where
  Id : String := ""
  UniqueId : String := ""
  deriving DecidableEq, Repr

structure FinishTestItemPayload where
  Status : String
  EndTime : String
  Issue : Issue
  deriving DecidableEq, Repr

structure FinishTestItemResponse where
  Msg : String := ""
  deriving DecidableEq, Repr

structure LogPayload where
  ItemId : String
  Time : String
  Message : String
  Level : String
  deriving DecidableEq, Repr

structure LogResponse where
  Id : String := ""
  deriving DecidableEq, Repr

/-- The request bodies built by the operations embedded here. -/
inductive Payload where
  | startLaunch (p : StartLaunchPayload)
  | finishLaunch (p : FinishLaunchPayload)
  | startTestItem (p : StartTestItemPayload)
  | finishTestItem (p : FinishTestItemPayload)
  | log (p : LogPayload)
  deriving DecidableEq, Repr

/-- Whether `json.NewEncoder(buf).Encode(body)` succeeds: payloads made of strings and
string collections always encode; an issue map encodes unless it holds an unsupported
value. -/
def Payload.encodable : Payload → Bool
  | .finishTestItem p =>
    match p.Issue with
    | none => true
    | some kvs => kvs.all (fun kv => kv.2 != JValue.unsupported)
  | _ => true

/-! ## The tracker: `stack.Stack` -/

/-- A slot of the tracker: `none` is the nil pushed for the launch root ("no parent"),
`some id` an item identifier. -/
abbrev Slot := Option String

/-- The LIFO stack of `github.com/golang-collections/collections/stack`, top first. -/
abbrev Stack := List Slot

/-- Embeds `stack.New()`. -/
def Stack.New : Stack := []

/-- Embeds `Len()`. -/
def Stack.Len (s : Stack) : Nat := s.length

/-- Embeds `Push(value)`. -/
def Stack.Push (s : Stack) (value : Slot) : Stack := value :: s

/-- Embeds `Peek()`: the top value; nil both for an empty stack and for a nil top slot. -/
def Stack.Peek : Stack → Slot
  | [] => none
  | value :: _ => value

/-- Embeds `Pop()`: removes and returns the top value; on an empty stack returns nil and leaves
the stack empty. -/
def Stack.Pop : Stack → Slot × Stack
  | [] => (none, [])
  | value :: prev => (value, prev)

/-! ## Requests, replies and the environment -/

/-- The `*http.Request` built by `newRequest`. -/
structure Request where
  Method : String
  BaseURL : String
  Path : String
  Body : Payload
  ContentType : String
  Accept : String
  UserAgent : String
  Authorization : String
  deriving DecidableEq, Repr

/-- A response body: its bytes and what `Close()` returns. -/
structure Body where
  data : String
  closeErr : Option GoError := none
  deriving DecidableEq, Repr

/-- The `*http.Response` fields that `do` reads. The body is never nil: `http.Client`
guarantees a non-nil `Body` on every response it returns. -/
structure Response where
  StatusCode : Nat
  Body : Body
  deriving DecidableEq, Repr

/-- What `c.httpClient.Do(req)` returns: a response pointer (`none` is nil) and an error
(`none` is nil). A transport failure is `resp = none`, `err = some _`. -/
structure Reply where
  resp : Option Response
  err : Option GoError
  deriving DecidableEq, Repr

/-- Embeds `json.NewDecoder(body).Decode(v)` for one result shape: from the body bytes and the
current contents of `v`, the new contents of `v` and the error returned. -/
abbrev Decoder (V : Type) := String → V → V × Option GoError

/-- The environment of a session: the transport, the clock and the JSON decoders.
`respond n req` is the reply to `req` when `n` requests were issued before it;
`now n` is `time.Now().Format(time.RFC3339)` read when `n` requests have been issued. -/
structure Env where
  respond : Nat → Request → Reply
  now : Nat → String
  decodeStartLaunch : Decoder StartLaunchResponse
  decodeFinishLaunch : Decoder FinishLaunchResponse
  decodeStartTestItem : Decoder StartTestItemResponse
  decodeFinishTestItem : Decoder FinishTestItemResponse
  decodeLog : Decoder LogResponse

/-- How a Go call ends: it returns, or a run-time panic is raised. -/
inductive Outcome (α : Type) where
  | returned (a : α)
  | panicked (msg : String)
  deriving DecidableEq, Repr

/-- The message of the run-time panic raised by dereferencing a nil pointer. -/
def nilDereference : String :=
  "runtime error: invalid memory address or nil pointer dereference"

/-- The `Client` struct (the logger and the transport handle live in `Env`). -/
structure Client where
  BaseURL : String
  ApiURL : String
  Project : String
  BTSProject : String
  BTSUrl : String
  Token : String
  UserAgent : String
  Stack : Stack
  LaunchId : String
  Retries : Int
  deriving DecidableEq, Repr

/-- Embeds `New(baseUrl, project, token, btsProject, btsUrl, ...)` before the options run. -/
def New (baseUrl project token btsProject btsUrl : String) : Client :=
  { BaseURL := baseUrl, ApiURL := "/api/v1", Project := project, BTSProject := btsProject,
    BTSUrl := btsUrl, Token := token, UserAgent := "", Stack := Stack.New, LaunchId := "",
    Retries := 3 }

/-- Embeds `WithRetries(retries)`. -/
def WithRetries (retries : Int) (c : Client) : Client := { c with Retries := retries }

/-- Embeds `GetLaunchId()`. -/
def Client.GetLaunchId (c : Client) : String := c.LaunchId

/-- Embeds `newRequest(method, path, body, "application/json")` for a non-nil payload struct,
the way every operation embedded here calls it: the body is JSON-encoded (the only step
that can fail) and the headers are set. -/
def Client.newRequest (c : Client) (method path : String) (body : Payload) :
    Except GoError Request :=
  if body.encodable then
    .ok { Method := method, BaseURL := c.BaseURL, Path := path, Body := body,
          ContentType := "application/json", Accept := "application/json",
          UserAgent := c.UserAgent, Authorization := "bearer " ++ c.Token }
  else
    .error (.other "json: unsupported type")

/-- The result of `do`: how the call ended (on return: the response pointer and the
error), the contents of `v` afterwards, and the log of issued requests. -/
structure DoStep (V : Type) where
  out : Outcome (Option Response × Option GoError)
  v : V
  sent : List Request

/-- The loop of `do` with `n` iterations left (`i <= c.Retries` holds for `n` more
values of `i`). Each iteration issues the request; a nil response is dereferenced by the
decode step (panic); a status `>= 400` continues; any other response is decoded into
`v`, the decode error is overwritten by the result of `Body.Close()`, and the call
returns. When no iteration is left the call returns `nil, httpRetriesReachedErr`. -/
def doLoop {V : Type} (respond : Nat → Request → Reply) (req : Request) (dec : Decoder V) :
    Nat → V → List Request → DoStep V
  | 0, v, sent => ⟨.returned (none, some .httpRetriesReachedErr), v, sent⟩
  | n + 1, v, sent =>
    let reply := respond sent.length req
    let sent := sent ++ [req]
    match reply.resp with
    | some resp =>
      if resp.StatusCode ≥ 400 then
        doLoop respond req dec n v sent
      else
        let decoded := dec resp.Body.data v
        ⟨.returned (some resp, resp.Body.closeErr), decoded.1, sent⟩
    | none => ⟨.panicked nilDereference, v, sent⟩

/-- Embeds `c.do(req, v)`: the loop `for i := 0; i <= c.Retries; i++` runs `c.Retries + 1`
times when `c.Retries >= 0` and not at all otherwise. -/
def Client.do_ {V : Type} (c : Client) (env : Env) (req : Request) (dec : Decoder V) (v : V)
    (sent : List Request) : DoStep V :=
  doLoop env.respond req dec (c.Retries + 1).toNat v sent

/-- The result of a facade operation: how it ended, the client and the request log. -/
structure Step (α : Type) where
  out : Outcome α
  client : Client
  sent : List Request

/-- Embeds `StartLaunch(name, description, startTimeStringRFC3339, tags, mode)`. -/
def Client.StartLaunch (c : Client) (env : Env) (sent : List Request)
    (name description startTimeStringRFC3339 : String) (tags : List String) (mode : String) :
    Step (StartLaunchResponse × Option GoError) :=
  let startTime :=
    if startTimeStringRFC3339 ≠ "" then startTimeStringRFC3339 else env.now sent.length
  let p : StartLaunchPayload :=
    { Name := name, StartTime := startTime, Description := description, Tags := tags,
      Mode := mode }
  match c.newRequest "POST" (c.ApiURL ++ "/" ++ c.Project ++ "/launch") (.startLaunch p) with
  | .error err => ⟨.returned ({}, some err), c, sent⟩
  | .ok req =>
    let r := c.do_ env req env.decodeStartLaunch {} sent
    match r.out with
    | .panicked msg => ⟨.panicked msg, c, r.sent⟩
    | .returned (_, some err) => ⟨.returned ({}, some err), c, r.sent⟩
    | .returned (_, none) =>
      let respBody := r.v
      let c1 := if respBody.Id ≠ "" then { c with LaunchId := respBody.Id } else c
      let c2 := { c1 with Stack := c1.Stack.Push none }
      let c3 := { c2 with LaunchId := respBody.Id }
      ⟨.returned (respBody, none), c3, r.sent⟩

/-- Embeds `FinishLaunch(status, endTimeStringRFC3339)`. -/
def Client.FinishLaunch (c : Client) (env : Env) (sent : List Request)
    (status endTimeStringRFC3339 : String) : Step (FinishLaunchResponse × Option GoError) :=
  let endTime :=
    if endTimeStringRFC3339 ≠ "" then endTimeStringRFC3339 else env.now sent.length
  let p : FinishLaunchPayload := { Status := status, EndTime := endTime }
  if c.LaunchId = "" then
    ⟨.returned ({}, some .noLaunchIdErr), c, sent⟩
  else
    match c.newRequest "PUT"
        (c.ApiURL ++ "/" ++ c.Project ++ "/launch/" ++ c.LaunchId ++ "/finish")
        (.finishLaunch p) with
    | .error err => ⟨.returned ({}, some err), c, sent⟩
    | .ok req =>
      let r := c.do_ env req env.decodeFinishLaunch {} sent
      match r.out with
      | .panicked msg => ⟨.panicked msg, c, r.sent⟩
      | .returned (_, some err) => ⟨.returned (r.v, some err), c, r.sent⟩
      | .returned (_, none) =>
        let c1 := if c.Stack.Len ≥ 1 then { c with Stack := c.Stack.Pop.2 } else c
        ⟨.returned (r.v, none), c1, r.sent⟩

/-- Embeds `StartTestItem(name, itemType, startTimeStringRFC3339, description, tags, parameters)`. -/
def Client.StartTestItem (c : Client) (env : Env) (sent : List Request)
    (name itemType startTimeStringRFC3339 description : String) (tags : List String)
    (parameters : List (List (String × String))) :
    Step (StartTestItemResponse × Option GoError) :=
  let startTime :=
    if startTimeStringRFC3339 ≠ "" then startTimeStringRFC3339 else env.now sent.length
  let p : StartTestItemPayload :=
    { Name := name, StartTime := startTime, Description := description, Tags := tags,
      LaunchId := c.LaunchId, Type_ := itemType, Parameters := parameters }
  let u :=
    match c.Stack.Peek with
    | some parentItemId => c.ApiURL ++ "/" ++ c.Project ++ "/item/" ++ parentItemId
    | none => c.ApiURL ++ "/" ++ c.Project ++ "/item"
  match c.newRequest "POST" u (.startTestItem p) with
  | .error err => ⟨.returned ({}, some err), c, sent⟩
  | .ok req =>
    let r := c.do_ env req env.decodeStartTestItem {} sent
    match r.out with
    | .panicked msg => ⟨.panicked msg, c, r.sent⟩
    | .returned (_, some err) => ⟨.returned ({}, some err), c, r.sent⟩
    | .returned (_, none) =>
      let respBody := r.v
      ⟨.returned (respBody, none), { c with Stack := c.Stack.Push (some respBody.Id) }, r.sent⟩

/-- Embeds `StartTestItemId(parentItemId, name, itemType, startTimeStringRFC3339, description,
tags, parameters)`. -/
def Client.StartTestItemId (c : Client) (env : Env) (sent : List Request)
    (parentItemId name itemType startTimeStringRFC3339 description : String)
    (tags : List String) (parameters : List (List (String × String))) :
    Step (StartTestItemResponse × Option GoError) :=
  let startTime :=
    if startTimeStringRFC3339 ≠ "" then startTimeStringRFC3339 else env.now sent.length
  let p : StartTestItemPayload :=
    { Name := name, StartTime := startTime, Description := description, Tags := tags,
      LaunchId := c.LaunchId, Type_ := itemType, Parameters := parameters }
  let u :=
    if parentItemId ≠ "" then c.ApiURL ++ "/" ++ c.Project ++ "/item/" ++ parentItemId
    else c.ApiURL ++ "/" ++ c.Project ++ "/item"
  match c.newRequest "POST" u (.startTestItem p) with
  | .error err => ⟨.returned ({}, some err), c, sent⟩
  | .ok req =>
    let r := c.do_ env req env.decodeStartTestItem {} sent
    match r.out with
    | .panicked msg => ⟨.panicked msg, c, r.sent⟩
    | .returned (_, some err) => ⟨.returned ({}, some err), c, r.sent⟩
    | .returned (_, none) =>
      let respBody := r.v
      ⟨.returned (respBody, none), { c with Stack := c.Stack.Push (some respBody.Id) }, r.sent⟩

/-- The issue sent by the finish operations: `{issue_type: NOT_ISSUE}` when no issue is
given and the status is `SKIPPED`, the given issue otherwise. -/
def defaultIssue (status : String) (issue : Issue) : Issue :=
  if issue = none ∧ status = "SKIPPED" then some [("issue_type", JValue.str "NOT_ISSUE")]
  else issue

/-- Embeds `fmt.Sprintf("%s", itemId)` for the `interface{}` popped from the tracker. -/
def formatSlot : Slot → String
  | some id => id
  | none => "%!s(<nil>)"

/-- Embeds `FinishTestItem(status, endTimeStringRFC3339, issue)`. -/
def Client.FinishTestItem (c : Client) (env : Env) (sent : List Request)
    (status endTimeStringRFC3339 : String) (issue : Issue) : Step (String × Option GoError) :=
  let issue := defaultIssue status issue
  let endTime :=
    if endTimeStringRFC3339 ≠ "" then endTimeStringRFC3339 else env.now sent.length
  let p : FinishTestItemPayload := { EndTime := endTime, Status := status, Issue := issue }
  let popped := c.Stack.Pop
  let itemId := popped.1
  let c := { c with Stack := popped.2 }
  match c.newRequest "PUT" (c.ApiURL ++ "/" ++ c.Project ++ "/item/" ++ formatSlot itemId)
      (.finishTestItem p) with
  | .error err => ⟨.returned ("", some err), c, sent⟩
  | .ok req =>
    let r := c.do_ env req env.decodeFinishTestItem {} sent
    match r.out with
    | .panicked msg => ⟨.panicked msg, c, r.sent⟩
    | .returned (_, some err) => ⟨.returned ("", some err), c, r.sent⟩
    | .returned (_, none) => ⟨.returned (r.v.Msg, none), c, r.sent⟩

/-- Embeds `FinishTestItemId(id, status, endTimeStringRFC3339, issue)`. -/
def Client.FinishTestItemId (c : Client) (env : Env) (sent : List Request)
    (id status endTimeStringRFC3339 : String) (issue : Issue) :
    Step (String × Option GoError) :=
  let issue := defaultIssue status issue
  let endTime :=
    if endTimeStringRFC3339 ≠ "" then endTimeStringRFC3339 else env.now sent.length
  let p : FinishTestItemPayload := { EndTime := endTime, Status := status, Issue := issue }
  match c.newRequest "PUT" (c.ApiURL ++ "/" ++ c.Project ++ "/item/" ++ id)
      (.finishTestItem p) with
  | .error err => ⟨.returned ("", some err), c, sent⟩
  | .ok req =>
    let r := c.do_ env req env.decodeFinishTestItem {} sent
    match r.out with
    | .panicked msg => ⟨.panicked msg, c, r.sent⟩
    | .returned (_, some err) => ⟨.returned ("", some err), c, r.sent⟩
    | .returned (_, none) => ⟨.returned (r.v.Msg, none), c, r.sent⟩

/-- Embeds `Log(message, level)`. -/
def Client.Log (c : Client) (env : Env) (sent : List Request) (message level : String) :
    Step (String × Option GoError) :=
  match c.Stack.Peek with
  | none => ⟨.returned ("", some .logNotAttachableToLaunchErr), c, sent⟩
  | some lastItemId =>
    let p : LogPayload :=
      { ItemId := lastItemId, Time := env.now sent.length, Message := message,
        Level := level }
    match c.newRequest "POST" (c.ApiURL ++ "/" ++ c.Project ++ "/log") (.log p) with
    | .error err => ⟨.returned ("", some err), c, sent⟩
    | .ok req =>
      let r := c.do_ env req env.decodeLog {} sent
      match r.out with
      | .panicked msg => ⟨.panicked msg, c, r.sent⟩
      | .returned (_, some err) => ⟨.returned ("", some err), c, r.sent⟩
      | .returned (_, none) => ⟨.returned (r.v.Id, none), c, r.sent⟩

/-! ## Sample data for concrete evaluations -/

/-- A client as `New` builds it, for project `testproj`. -/
def sampleClient : Client := New "http://localhost" "testproj" "token" "bts" "http://bts"

/-- A launch request as `StartLaunch` builds it. -/
def sampleRequest : Request :=
  { Method := "POST", BaseURL := "http://localhost", Path := "/api/v1/testproj/launch",
    Body := .startLaunch
      { Name := "testrun", Description := "", Tags := ["tag1"], StartTime := "t0",
        Mode := "DEFAULT" },
    ContentType := "application/json", Accept := "application/json", UserAgent := "",
    Authorization := "bearer token" }

/-- A sample decoder for a launch response: the body `<html>` is rejected as malformed
and leaves `v` as it was, any other body is read as the launch identifier. -/
def sampleDecodeLaunch : Decoder StartLaunchResponse := fun body v =>
  if body = "<html>" then (v, some (.other "invalid character '<' looking for beginning of value"))
  else ({ v with Id := body }, none)

/-- A sample decoder for an item response, like `sampleDecodeLaunch`. -/
def sampleDecodeItem : Decoder StartTestItemResponse := fun body v =>
  if body = "<html>" then (v, some (.other "invalid character '<' looking for beginning of value"))
  else ({ v with Id := body }, none)

/-- A sample decoder for a finish-item response, like `sampleDecodeLaunch`. -/
def sampleDecodeMsg : Decoder FinishTestItemResponse := fun body v =>
  if body = "<html>" then (v, some (.other "invalid character '<' looking for beginning of value"))
  else ({ v with Msg := body }, none)

/-- A sample decoder for a finish-launch response, like `sampleDecodeLaunch`. -/
def sampleDecodeFinishLaunch : Decoder FinishLaunchResponse := fun body v =>
  if body = "<html>" then (v, some (.other "invalid character '<' looking for beginning of value"))
  else ({ v with Id := body }, none)

/-- A sample decoder for a log response, like `sampleDecodeLaunch`. -/
def sampleDecodeLog : Decoder LogResponse := fun body v =>
  if body = "<html>" then (v, some (.other "invalid character '<' looking for beginning of value"))
  else ({ v with Id := body }, none)

/-- An environment whose transport is `respond`, with the sample decoders. -/
def sampleEnv (respond : Nat → Request → Reply) : Env :=
  { respond := respond, now := fun _ => "2019-02-01T14:21:30+03:00",
    decodeStartLaunch := sampleDecodeLaunch, decodeFinishLaunch := sampleDecodeFinishLaunch,
    decodeStartTestItem := sampleDecodeItem, decodeFinishTestItem := sampleDecodeMsg,
    decodeLog := sampleDecodeLog }

/-- A reply carrying a response with the given status and body. -/
def replyWith (status : Nat) (data : String) : Reply :=
  { resp := some { StatusCode := status, Body := { data := data } }, err := none }

/-- A transport that answers every request with status 500. -/
def alwaysRejects : Nat → Request → Reply := fun _ _ => replyWith 500 "wrong data"

/-- A transport that answers the first `k` requests with 500 and the later ones with 200
and the body `data`. -/
def rejectsThenAccepts (k : Nat) (data : String) : Nat → Request → Reply := fun n _ =>
  if n < k then replyWith 500 "wrong data" else replyWith 200 data

/-- A transport on which every exchange fails before a response is obtained. -/
def alwaysFails : Nat → Request → Reply := fun _ _ =>
  { resp := none, err := some (.other "dial tcp: connection refused") }

/-- A transport that answers every request with status 200 and the body `data`. -/
def alwaysAccepts (data : String) : Nat → Request → Reply := fun _ _ => replyWith 200 data

/-- A transport that accepts every request: a start-item request is answered with the
identifier `<name>_id`, any other request with the body `done`. -/
def namingService : Nat → Request → Reply := fun _ req =>
  match req.Body with
  | .startTestItem p => replyWith 200 (p.Name ++ "_id")
  | _ => replyWith 200 "done"

/-! ## Sequences of facade calls -/

/-- The arguments of one `StartTestItem` call. -/
structure StartItemArgs where
  name : String
  itemType : String
  startTime : String
  description : String
  tags : List String
  parameters : List (List (String × String))
  deriving DecidableEq, Repr

/-- The arguments of one `FinishTestItem` call. -/
structure FinishItemArgs where
  status : String
  endTime : String
  issue : Issue
  deriving DecidableEq, Repr

/-- The outcomes of a sequence of calls, with the client and request log after it. -/
structure Run (α : Type) where
  outs : List (Outcome α)
  client : Client
  sent : List Request

/-- One `StartTestItem` call per element of the list, in order, each on the client and
request log left by the previous one. -/
def startItems (env : Env) :
    List StartItemArgs → Client → List Request → Run (StartTestItemResponse × Option GoError)
  | [], c, sent => ⟨[], c, sent⟩
  | a :: rest, c, sent =>
    let r := c.StartTestItem env sent a.name a.itemType a.startTime a.description a.tags
      a.parameters
    let run := startItems env rest r.client r.sent
    ⟨r.out :: run.outs, run.client, run.sent⟩

/-- One `FinishTestItem` call per element of the list, in order, each on the client and
request log left by the previous one (a call that ended in a panic leaves the client as
it was when the panic was raised). -/
def finishItems (env : Env) :
    List FinishItemArgs → Client → List Request → Run (String × Option GoError)
  | [], c, sent => ⟨[], c, sent⟩
  | a :: rest, c, sent =>
    let r := c.FinishTestItem env sent a.status a.endTime a.issue
    let run := finishItems env rest r.client r.sent
    ⟨r.out :: run.outs, run.client, run.sent⟩

/-- The item identifiers returned by the start calls of a run, in call order. -/
def startedIds : List (Outcome (StartTestItemResponse × Option GoError)) → List String
  | [] => []
  | .returned (body, _) :: rest => body.Id :: startedIds rest
  | .panicked _ :: rest => startedIds rest

/-! ## The launch scenario -/

/-- The seven calls of the scenario: start launch `L`, start item `suite`, start item
`case`, log `msg`, finish, finish, finish launch; each entry is the result of one call. -/
structure Scenario where
  launch : Step (StartLaunchResponse × Option GoError)
  suite : Step (StartTestItemResponse × Option GoError)
  testCase : Step (StartTestItemResponse × Option GoError)
  log : Step (String × Option GoError)
  finishCase : Step (String × Option GoError)
  finishSuite : Step (String × Option GoError)
  finishLaunch : Step (FinishLaunchResponse × Option GoError)

/-- Runs the scenario on client `c` with an empty request log, each call on the client
and request log left by the previous one. -/
def runScenario (env : Env) (c : Client) : Scenario :=
  let launch := c.StartLaunch env [] "L" "" "" [] "DEFAULT"
  let suite := launch.client.StartTestItem env launch.sent "suite" "SUITE" "" "" [] []
  let testCase := suite.client.StartTestItem env suite.sent "case" "TEST" "" "" [] []
  let log := testCase.client.Log env testCase.sent "msg" "INFO"
  let finishCase := log.client.FinishTestItem env log.sent "PASSED" "" none
  let finishSuite := finishCase.client.FinishTestItem env finishCase.sent "PASSED" "" none
  let finishLaunch := finishSuite.client.FinishLaunch env finishSuite.sent "PASSED" ""
  ⟨launch, suite, testCase, log, finishCase, finishSuite, finishLaunch⟩

/-- The tracker depth after each of the seven calls. -/
def Scenario.depths (s : Scenario) : List Nat :=
  [s.launch.client.Stack.Len, s.suite.client.Stack.Len, s.testCase.client.Stack.Len,
   s.log.client.Stack.Len, s.finishCase.client.Stack.Len, s.finishSuite.client.Stack.Len,
   s.finishLaunch.client.Stack.Len]

/-! ## Sessions with the bookkeeping of the data model -/

/-- A facade call with its arguments. -/
inductive Op where
  | startLaunch (name description startTime : String) (tags : List String) (mode : String)
  | startTestItem (a : StartItemArgs)
  | finishTestItem (a : FinishItemArgs)
  | log (message level : String)
  | finishLaunch (status endTime : String)
  deriving DecidableEq, Repr

/-- Where the launch of a session stands: none started yet, one active, or finished. -/
inductive Phase where
  | noLaunch
  | active
  | finished
  deriving DecidableEq, Repr

/-- A session together with the two quantities the invariant of the data model speaks
of: the phase of the launch and the number of currently open items (started
successfully, not yet finished). -/
structure Session where
  client : Client
  sent : List Request
  phase : Phase
  openItems : Nat

/-- The session of a client on which no call has been made. -/
def Session.fresh (c : Client) : Session :=
  { client := c, sent := [], phase := .noLaunch, openItems := 0 }

/-- Whether a call returned with a nil error. -/
def succeeded {α : Type} : Outcome (α × Option GoError) → Bool
  | .returned (_, none) => true
  | _ => false

/-- One facade call on a session. A launch becomes active when `StartLaunch` succeeds
and finished when `FinishLaunch` succeeds; an item is open from a successful
`StartTestItem` until `FinishTestItem` is called. -/
def Session.apply (env : Env) (s : Session) : Op → Session
  | .startLaunch name description startTime tags mode =>
    let r := s.client.StartLaunch env s.sent name description startTime tags mode
    { client := r.client, sent := r.sent,
      phase := if succeeded r.out then .active else s.phase, openItems := s.openItems }
  | .startTestItem a =>
    let r := s.client.StartTestItem env s.sent a.name a.itemType a.startTime a.description
      a.tags a.parameters
    { client := r.client, sent := r.sent, phase := s.phase,
      openItems := if succeeded r.out then s.openItems + 1 else s.openItems }
  | .finishTestItem a =>
    let r := s.client.FinishTestItem env s.sent a.status a.endTime a.issue
    { client := r.client, sent := r.sent, phase := s.phase, openItems := s.openItems - 1 }
  | .log message level =>
    let r := s.client.Log env s.sent message level
    { client := r.client, sent := r.sent, phase := s.phase, openItems := s.openItems }
  | .finishLaunch status endTime =>
    let r := s.client.FinishLaunch env s.sent status endTime
    { client := r.client, sent := r.sent,
      phase := if succeeded r.out then .finished else s.phase, openItems := s.openItems }

/-- A sequence of facade calls on a session, in order. -/
def Session.run (env : Env) : List Op → Session → Session
  | [], s => s
  | op :: ops, s => Session.run env ops (s.apply env op)

/-- The invariant of the data model: the size of the tracker is the number of open items
plus one while a launch is active, and 0 once the launch is finished. -/
def Session.sizeInvariant (s : Session) : Bool :=
  match s.phase with
  | .noLaunch => true
  | .active => s.client.Stack.Len == s.openItems + 1
  | .finished => s.client.Stack.Len == 0

/-- Whether a call keeps the nesting order in session `s`: no launch is started while
one is active, no item is started once the launch is finished, an item is finished only
while one is open, and the launch is finished only while no item is open. -/
def Session.allows (s : Session) : Op → Bool
  | .startLaunch _ _ _ _ _ => s.phase != .active
  | .startTestItem _ => s.phase != .finished
  | .finishTestItem _ => 0 < s.openItems
  | .log _ _ => true
  | .finishLaunch _ _ => s.openItems == 0

/-- Whether every call of a sequence keeps the nesting order in the session it is made
on. -/
def Session.wellNested (env : Env) : List Op → Session → Bool
  | [], _ => true
  | op :: ops, s => s.allows op && Session.wellNested env ops (s.apply env op)

/-- The size bookkeeping kept by well-nested sequences: before any launch the tracker
holds the open items only, during a launch one slot more, and after it nothing. -/
def Session.consistent (s : Session) : Bool :=
  match s.phase with
  | .noLaunch => s.client.Stack.Len == s.openItems
  | .active => s.client.Stack.Len == s.openItems + 1
  | .finished => s.client.Stack.Len == 0 && s.openItems == 0

/-! ## The retrying request executor -/

/-- While every remaining attempt is rejected, the loop uses all its iterations, leaves
`v` untouched and returns the retries-reached error. -/
theorem doLoop_rejected {V : Type} (respond : Nat → Request → Reply) (req : Request)
    (dec : Decoder V) (v : V) (n : Nat) :
    ∀ sent : List Request,
      (∀ i, i < n → ∃ resp, (respond (sent.length + i) req).resp = some resp ∧
          400 ≤ resp.StatusCode) →
      doLoop respond req dec n v sent =
        ⟨.returned (none, some .httpRetriesReachedErr), v, sent ++ List.replicate n req⟩ := by
  induction n with
  | zero => intro sent _; simp [doLoop]
  | succ n ih =>
    intro sent h
    obtain ⟨resp, hresp, hcode⟩ := h 0 (Nat.succ_pos n)
    have hstep : doLoop respond req dec (n + 1) v sent =
        doLoop respond req dec n v (sent ++ [req]) := by
      simp only [doLoop]
      rw [Nat.add_zero] at hresp
      rw [hresp]
      simp [hcode]
    rw [hstep, ih (sent ++ [req])]
    · simp [List.replicate_succ]
    · intro i hi
      have := h (i + 1) (Nat.succ_lt_succ hi)
      simpa [Nat.add_assoc, Nat.add_comm 1 i] using this

/-- After `k` rejected attempts, an accepted response ends the loop at once. -/
theorem doLoop_rejected_then_accepted {V : Type} (respond : Nat → Request → Reply)
    (req : Request) (dec : Decoder V) (v : V) (resp : Response) (k : Nat) :
    ∀ (n : Nat) (sent : List Request), k < n →
      (∀ i, i < k → ∃ r, (respond (sent.length + i) req).resp = some r ∧ 400 ≤ r.StatusCode) →
      (respond (sent.length + k) req).resp = some resp → resp.StatusCode < 400 →
      doLoop respond req dec n v sent =
        ⟨.returned (some resp, resp.Body.closeErr), (dec resp.Body.data v).1,
          sent ++ List.replicate (k + 1) req⟩ := by
  induction k with
  | zero =>
    intro n sent hn _ hresp hcode
    obtain ⟨m, rfl⟩ : ∃ m, n = m + 1 := ⟨n - 1, by omega⟩
    simp only [doLoop]
    rw [Nat.add_zero] at hresp
    rw [hresp]
    simp [Nat.not_le.mpr hcode]
  | succ k ih =>
    intro n sent hn h hresp hcode
    obtain ⟨m, rfl⟩ : ∃ m, n = m + 1 := ⟨n - 1, by omega⟩
    obtain ⟨r, hr, hrcode⟩ := h 0 (Nat.succ_pos k)
    have hstep : doLoop respond req dec (m + 1) v sent =
        doLoop respond req dec m v (sent ++ [req]) := by
      simp only [doLoop]
      rw [Nat.add_zero] at hr
      rw [hr]
      simp [hrcode]
    rw [hstep, ih m (sent ++ [req]) (by omega)]
    · simp [List.replicate_succ]
    · intro i hi
      have := h (i + 1) (Nat.succ_lt_succ hi)
      simpa [Nat.add_assoc, Nat.add_comm 1 i] using this
    · simpa [Nat.add_assoc, Nat.add_comm 1 k] using hresp
    · exact hcode

/-- Every request the loop issues is the prepared request, and at most `n` are issued. -/
theorem doLoop_sent {V : Type} (respond : Nat → Request → Reply) (req : Request)
    (dec : Decoder V) (v : V) (n : Nat) :
    ∀ sent : List Request, ∃ k, k ≤ n ∧ (0 < n → 0 < k) ∧
      (doLoop respond req dec n v sent).sent = sent ++ List.replicate k req := by
  induction n with
  | zero => intro sent; exact ⟨0, Nat.le_refl 0, fun h => h, by simp [doLoop]⟩
  | succ n ih =>
    intro sent
    simp only [doLoop]
    cases hresp : (respond sent.length req).resp with
    | none => exact ⟨1, by omega, fun _ => Nat.one_pos, by simp⟩
    | some resp =>
      by_cases hcode : resp.StatusCode ≥ 400
      · obtain ⟨k, hk, _, hsent⟩ := ih (sent ++ [req])
        refine ⟨k + 1, by omega, fun _ => Nat.succ_pos k, ?_⟩
        simp [hcode, hsent, List.replicate_succ]
      · exact ⟨1, by omega, fun _ => Nat.one_pos, by simp [hcode]⟩

/-- C1: for every retry bound `R >= 0`, if the transport answers every attempt with a
status code `>= 400`, `do` issues exactly `R + 1` requests, returns a nil response with
`httpRetriesReachedErr`, and leaves the result `v` undecoded (as the caller passed it). -/
theorem do_all_rejected_exhausts_retries {V : Type} (c : Client) (env : Env) (req : Request)
    (dec : Decoder V) (v : V) (sent : List Request) (R : Nat) (hR : c.Retries = (R : Int))
    (hrej : ∀ n, ∃ resp, (env.respond n req).resp = some resp ∧ 400 ≤ resp.StatusCode) :
    (c.do_ env req dec v sent).out = .returned (none, some .httpRetriesReachedErr) ∧
    (c.do_ env req dec v sent).v = v ∧
    (c.do_ env req dec v sent).sent = sent ++ List.replicate (R + 1) req ∧
    (c.do_ env req dec v sent).sent.length = sent.length + (R + 1) := by
  have hn : (c.Retries + 1).toNat = R + 1 := by rw [hR]; omega
  have h := doLoop_rejected env.respond req dec v (R + 1) sent (fun i _ => hrej _)
  simp [Client.do_, hn, h]

/-- C1 at `Retries = 3` against a transport that always answers 500: four requests. -/
theorem do_all_rejected_exhausts_retries_witness :
    sampleClient.Retries = ((3 : Nat) : Int) ∧
    (∀ n, ∃ resp, ((sampleEnv alwaysRejects).respond n sampleRequest).resp = some resp ∧
        400 ≤ resp.StatusCode) ∧
    (sampleClient.do_ (sampleEnv alwaysRejects) sampleRequest sampleDecodeLaunch {} []).out =
      .returned (none, some .httpRetriesReachedErr) ∧
    (sampleClient.do_ (sampleEnv alwaysRejects) sampleRequest sampleDecodeLaunch {} []).sent.length
      = 4 :=
  have hrej : ∀ n, ∃ resp, ((sampleEnv alwaysRejects).respond n sampleRequest).resp = some resp ∧
      400 ≤ resp.StatusCode := fun _ => ⟨_, rfl, by decide⟩
  have h := do_all_rejected_exhausts_retries sampleClient (sampleEnv alwaysRejects)
    sampleRequest sampleDecodeLaunch {} [] 3 rfl hrej
  ⟨rfl, hrej, h.1, h.2.2.2⟩

/-- C2: for every retry bound `R` and every `k <= R` (in particular `k < R`), if the
first `k` attempts are answered with a status `>= 400` (such as 500) and the next with a
status `< 400` (such as 200) whose body decodes and closes without error, `do` returns
that response with no error, `v` holds the value decoded from its body, and exactly
`k + 1` requests are issued. -/
theorem do_rejected_then_accepted_returns_decoded {V : Type} (c : Client) (env : Env)
    (req : Request) (dec : Decoder V) (v : V) (sent : List Request) (R k : Nat)
    (resp : Response) (hR : c.Retries = (R : Int)) (hk : k ≤ R)
    (hrej : ∀ i, i < k → ∃ r, (env.respond (sent.length + i) req).resp = some r ∧
        400 ≤ r.StatusCode)
    (hresp : (env.respond (sent.length + k) req).resp = some resp)
    (hcode : resp.StatusCode < 400)
    (_hvalid : (dec resp.Body.data v).2 = none) (hclose : resp.Body.closeErr = none) :
    (c.do_ env req dec v sent).out = .returned (some resp, none) ∧
    (c.do_ env req dec v sent).v = (dec resp.Body.data v).1 ∧
    (c.do_ env req dec v sent).sent = sent ++ List.replicate (k + 1) req ∧
    (c.do_ env req dec v sent).sent.length = sent.length + (k + 1) := by
  have hn : (c.Retries + 1).toNat = R + 1 := by rw [hR]; omega
  have h := doLoop_rejected_then_accepted env.respond req dec v resp k (R + 1) sent
    (by omega) hrej hresp hcode
  simp [Client.do_, hn, h, hclose]

/-- C2 at `Retries = 3`, two 500 answers and then 200 with the body `id1`: the launch
identifier `id1` is decoded and three requests are issued. -/
theorem do_rejected_then_accepted_returns_decoded_witness :
    (sampleClient.do_ (sampleEnv (rejectsThenAccepts 2 "id1")) sampleRequest
        sampleDecodeLaunch {} []).out =
      .returned (some { StatusCode := 200, Body := { data := "id1" } }, none) ∧
    (sampleClient.do_ (sampleEnv (rejectsThenAccepts 2 "id1")) sampleRequest
        sampleDecodeLaunch {} []).v = { Number := 0, Id := "id1" } ∧
    (sampleClient.do_ (sampleEnv (rejectsThenAccepts 2 "id1")) sampleRequest
        sampleDecodeLaunch {} []).sent.length = 3 :=
  have h := do_rejected_then_accepted_returns_decoded sampleClient
    (sampleEnv (rejectsThenAccepts 2 "id1")) sampleRequest sampleDecodeLaunch {} [] 3 2
    { StatusCode := 200, Body := { data := "id1" } } rfl (by decide)
    (fun i hi => ⟨{ StatusCode := 500, Body := { data := "wrong data" } },
      by simp [sampleEnv, rejectsThenAccepts, replyWith, hi], by decide⟩)
    (by simp [sampleEnv, rejectsThenAccepts, replyWith]) (by decide) (by decide) rfl
  ⟨h.1, h.2.1, h.2.2.2⟩

/-- C3 (the code at a transport failure): for every retry bound `R >= 0`, on a transport
where every exchange fails before a response is obtained, `do` issues one request and
then dereferences the nil response: the call ends in a run-time panic, no error value is
returned and no second attempt is made. -/
theorem do_transport_failure_panics (R : Nat) (req : Request) (sent : List Request) :
    ((WithRetries R sampleClient).do_ (sampleEnv alwaysFails) req sampleDecodeLaunch {}
        sent).out = .panicked nilDereference ∧
    ((WithRetries R sampleClient).do_ (sampleEnv alwaysFails) req sampleDecodeLaunch {}
        sent).sent = sent ++ [req] := by
  have hn : ((R : Int) + 1).toNat = R + 1 := by omega
  simp [Client.do_, WithRetries, hn, doLoop, sampleEnv, alwaysFails]

/-- C4 (the code at an undecodable success body): for every retry bound `R >= 0`, when
the transport answers 200 with the body `<html>`, which the decoder rejects, `do`
returns the response with a nil error after one request: the decoding error has been
overwritten by the result of closing the body. -/
theorem do_undecodable_body_returns_nil_error (R : Nat) (req : Request)
    (sent : List Request) :
    (sampleDecodeLaunch "<html>" {}).2 =
      some (.other "invalid character '<' looking for beginning of value") ∧
    ((WithRetries R sampleClient).do_ (sampleEnv (alwaysAccepts "<html>")) req
        sampleDecodeLaunch {} sent).out =
      .returned (some { StatusCode := 200, Body := { data := "<html>" } }, none) ∧
    ((WithRetries R sampleClient).do_ (sampleEnv (alwaysAccepts "<html>")) req
        sampleDecodeLaunch {} sent).sent = sent ++ [req] := by
  have hn : ((R : Int) + 1).toNat = R + 1 := by omega
  refine ⟨by decide, ?_, ?_⟩ <;>
    simp [Client.do_, WithRetries, hn, doLoop, sampleEnv, alwaysAccepts, replyWith]

/-- A return of `do` with a nil error comes from a response with status `< 400`, and
`v` then holds what the decoder made of that response's body. -/
theorem doLoop_returned_ok {V : Type} (respond : Nat → Request → Reply) (req : Request)
    (dec : Decoder V) (v : V) (n : Nat) :
    ∀ (sent : List Request) (x : Option Response),
      (doLoop respond req dec n v sent).out = .returned (x, none) →
      ∃ resp i, (respond i req).resp = some resp ∧ resp.StatusCode < 400 ∧ x = some resp ∧
        (doLoop respond req dec n v sent).v = (dec resp.Body.data v).1 := by
  induction n with
  | zero => intro sent x h; simp [doLoop] at h
  | succ n ih =>
    intro sent x h
    simp only [doLoop] at h ⊢
    cases hresp : (respond sent.length req).resp with
    | none => simp [hresp] at h
    | some resp =>
      simp only [hresp] at h ⊢
      by_cases hcode : resp.StatusCode ≥ 400
      · simp only [hcode, if_true] at h ⊢
        exact ih _ _ h
      · simp only [hcode, if_false] at h ⊢
        simp at h
        exact ⟨resp, sent.length, hresp, by omega, h.1.symm, rfl⟩

/-! ## The session facade -/

/-- C10: `Log` called while the tracker is empty or its top slot is the launch root
returns the error `logNotAttachableToLaunchErr`, whose text is "cannot attach log to
launch item, only to test items", issues no request and leaves the client, tracker
included, as it was. -/
theorem Log_without_open_item_fails (c : Client) (env : Env) (sent : List Request)
    (message level : String) (h : c.Stack = [] ∨ ∃ rest, c.Stack = none :: rest) :
    (c.Log env sent message level).out =
      .returned ("", some .logNotAttachableToLaunchErr) ∧
    GoError.logNotAttachableToLaunchErr.Error =
      "cannot attach log to launch item, only to test items" ∧
    (c.Log env sent message level).sent = sent ∧
    (c.Log env sent message level).client = c ∧
    (c.Log env sent message level).client.Stack.Len = c.Stack.Len := by
  have hpeek : c.Stack.Peek = none := by
    rcases h with h | ⟨rest, h⟩ <;> rw [h] <;> rfl
  simp [Client.Log, hpeek, GoError.Error]

/-- C10 on the tracker of `TestClient_LogNotAttachableToLaunchItem` (one root slot) and
on the empty tracker of a fresh client. -/
theorem Log_without_open_item_fails_witness :
    (({ sampleClient with Stack := [none] }).Log (sampleEnv (alwaysAccepts "log_id")) []
        "logmessage" "DEBUG").out = .returned ("", some .logNotAttachableToLaunchErr) ∧
    (({ sampleClient with Stack := [none] }).Log (sampleEnv (alwaysAccepts "log_id")) []
        "logmessage" "DEBUG").client.Stack.Len = 1 ∧
    (sampleClient.Log (sampleEnv (alwaysAccepts "log_id")) [] "logmessage" "DEBUG").sent
      = [] :=
  have h1 := Log_without_open_item_fails { sampleClient with Stack := [none] }
    (sampleEnv (alwaysAccepts "log_id")) [] "logmessage" "DEBUG" (Or.inr ⟨[], rfl⟩)
  have h2 := Log_without_open_item_fails sampleClient
    (sampleEnv (alwaysAccepts "log_id")) [] "logmessage" "DEBUG" (Or.inl rfl)
  ⟨h1.1, h1.2.2.2.2, h2.2.2.1⟩

/-- C8: whenever `StartLaunch` returns a response `body` with no error, the client
differs from the one before the call only in that `body.Id` is recorded as launch
identifier (`GetLaunchId` returns it) and one root slot is pushed (the depth grows by
one, the new top is the no-parent value, the earlier slots are below it unchanged); and
`body` is what the decoder made of a transport response with status `< 400`. -/
theorem StartLaunch_success_records_launch (c : Client) (env : Env) (sent : List Request)
    (name description startTime : String) (tags : List String) (mode : String)
    (body : StartLaunchResponse)
    (h : (c.StartLaunch env sent name description startTime tags mode).out =
      .returned (body, none)) :
    (c.StartLaunch env sent name description startTime tags mode).client =
      { c with Stack := none :: c.Stack, LaunchId := body.Id } ∧
    (c.StartLaunch env sent name description startTime tags mode).client.GetLaunchId =
      body.Id ∧
    (c.StartLaunch env sent name description startTime tags mode).client.Stack.Len =
      c.Stack.Len + 1 ∧
    (c.StartLaunch env sent name description startTime tags mode).client.Stack.Peek = none ∧
    (c.StartLaunch env sent name description startTime tags mode).client.Stack.Pop =
      (none, c.Stack) ∧
    ∃ req resp n, (env.respond n req).resp = some resp ∧ resp.StatusCode < 400 ∧
      body = (env.decodeStartLaunch resp.Body.data {}).1 := by
  unfold Client.StartLaunch at h ⊢
  simp only [Client.newRequest, Payload.encodable, ↓reduceIte] at h ⊢
  split at h
  · simp at h
  · simp at h
  · rename_i x hout
    simp only [Outcome.returned.injEq, Prod.mk.injEq, and_true] at h
    subst h
    simp only [hout]
    obtain ⟨resp, n, hresp, hcode, -, hv⟩ := doLoop_returned_ok _ _ _ _ _ _ _ hout
    refine ⟨?_, ?_, ?_, ?_, ?_, _, resp, n, hresp, hcode, hv⟩
    · split_ifs <;> rfl
    · rfl
    · split_ifs <;> simp [Stack.Len, Stack.Push]
    · rfl
    · split_ifs <;> rfl

/-- C8 on a fresh client, as in `TestClient_StartLaunch`: the service answers 200 with
the identifier `id1`; the launch identifier becomes `id1` and the depth goes from 0 to 1. -/
theorem StartLaunch_success_records_launch_witness :
    (sampleClient.StartLaunch (sampleEnv (alwaysAccepts "id1")) [] "testrun" "test launch" ""
        ["tag1"] "DEFAULT").out = .returned ({ Number := 0, Id := "id1" }, none) ∧
    (sampleClient.StartLaunch (sampleEnv (alwaysAccepts "id1")) [] "testrun" "test launch" ""
        ["tag1"] "DEFAULT").client.GetLaunchId = "id1" ∧
    (sampleClient.StartLaunch (sampleEnv (alwaysAccepts "id1")) [] "testrun" "test launch" ""
        ["tag1"] "DEFAULT").client.Stack.Len = 1 ∧
    (sampleClient.StartLaunch (sampleEnv (alwaysAccepts "id1")) [] "testrun" "test launch" ""
        ["tag1"] "DEFAULT").client.Stack.Peek = none :=
  have h0 : (sampleClient.StartLaunch (sampleEnv (alwaysAccepts "id1")) [] "testrun"
      "test launch" "" ["tag1"] "DEFAULT").out = .returned ({ Number := 0, Id := "id1" }, none) :=
    by decide
  have h := StartLaunch_success_records_launch sampleClient (sampleEnv (alwaysAccepts "id1"))
    [] "testrun" "test launch" "" ["tag1"] "DEFAULT" { Number := 0, Id := "id1" } h0
  ⟨h0, h.2.1, h.2.2.1, h.2.2.2.1⟩

/-- C9: if the remote rejects every attempt (status `>= 400`), then for every retry
bound `StartLaunch` returns the zero-valued response with an error and leaves the
client (tracker and launch identifier) as it was, and so does `StartTestItem`. More
generally, on any transport, a `StartTestItem` that does not return a response with a
nil error leaves the client as it was, and the response it returns with an error is the
zero value. -/
theorem failed_start_leaves_session_unchanged (c : Client) (env : Env) (sent : List Request)
    (name description startTime : String) (tags : List String) (mode itemType : String)
    (parameters : List (List (String × String)))
    (hrej : ∀ n req, ∃ resp, (env.respond n req).resp = some resp ∧ 400 ≤ resp.StatusCode) :
    (c.StartLaunch env sent name description startTime tags mode).out =
      .returned ({ Number := 0, Id := "" }, some .httpRetriesReachedErr) ∧
    (c.StartLaunch env sent name description startTime tags mode).client = c ∧
    (c.StartTestItem env sent name itemType startTime description tags parameters).out =
      .returned ({ Id := "", UniqueId := "" }, some .httpRetriesReachedErr) ∧
    (c.StartTestItem env sent name itemType startTime description tags parameters).client = c ∧
    ∀ (env2 : Env) (sent2 : List Request),
      (∀ body, (c.StartTestItem env2 sent2 name itemType startTime description tags
          parameters).out ≠ .returned (body, none)) →
      (c.StartTestItem env2 sent2 name itemType startTime description tags
          parameters).client = c ∧
      ∀ body err, (c.StartTestItem env2 sent2 name itemType startTime description tags
          parameters).out = .returned (body, some err) → body = { Id := "", UniqueId := "" } := by
  have hloop : ∀ {V : Type} (req : Request) (dec : Decoder V) (v : V),
      c.do_ env req dec v sent = ⟨.returned (none, some .httpRetriesReachedErr), v,
        sent ++ List.replicate (c.Retries + 1).toNat req⟩ := by
    intro V req dec v
    exact doLoop_rejected env.respond req dec v _ sent (fun i _ => hrej _ req)
  refine ⟨?_, ?_, ?_, ?_, ?_⟩
  · simp [Client.StartLaunch, Client.newRequest, Payload.encodable, hloop]
  · simp [Client.StartLaunch, Client.newRequest, Payload.encodable, hloop]
  · simp [Client.StartTestItem, Client.newRequest, Payload.encodable, hloop]
  · simp [Client.StartTestItem, Client.newRequest, Payload.encodable, hloop]
  · intro env2 sent2 hfail
    unfold Client.StartTestItem at hfail ⊢
    simp only [Client.newRequest, Payload.encodable, ↓reduceIte] at hfail ⊢
    split
    · exact ⟨rfl, fun body err hb => by simp at hb⟩
    · exact ⟨rfl, fun body err hb => by simp at hb; exact hb.1.symm⟩
    · rename_i x hout
      exact absurd (by rw [hout]) (hfail _)

/-- C9 on a fresh client, as in `TestClient_FailedRequest`: every attempt is rejected,
`StartLaunch` returns an error with the zero-valued response and the depth stays 0. -/
theorem failed_start_leaves_session_unchanged_witness :
    (∀ n req, ∃ resp, ((sampleEnv alwaysRejects).respond n req).resp = some resp ∧
        400 ≤ resp.StatusCode) ∧
    (sampleClient.StartLaunch (sampleEnv alwaysRejects) [] "testrun" "" "" ["tag1"]
        "DEFAULT").out = .returned ({ Number := 0, Id := "" }, some .httpRetriesReachedErr) ∧
    (sampleClient.StartLaunch (sampleEnv alwaysRejects) [] "testrun" "" "" ["tag1"]
        "DEFAULT").client.Stack.Len = 0 ∧
    (sampleClient.StartLaunch (sampleEnv alwaysRejects) [] "testrun" "" "" ["tag1"]
        "DEFAULT").client.GetLaunchId = "" :=
  have hrej : ∀ n req, ∃ resp, ((sampleEnv alwaysRejects).respond n req).resp = some resp ∧
      400 ≤ resp.StatusCode := fun _ _ => ⟨_, rfl, by decide⟩
  have h := failed_start_leaves_session_unchanged sampleClient (sampleEnv alwaysRejects) []
    "testrun" "" "" ["tag1"] "DEFAULT" "SUITE" [] hrej
  ⟨hrej, h.1, by rw [h.2.1]; rfl, by rw [h.2.1]; rfl⟩

/-- C7: every request `StartTestItem` issues is one and the same POST, whose body is
the start-item payload carrying the session's current launch identifier, addressed to
the root collection `<api>/<project>/item` when the tracker is empty or its top is the
root slot, and to `<api>/<project>/item/<P>` when the top slot holds `P`; at least one
such request is issued when `Retries >= 0`. When the call returns a response with a nil
error, the identifier in the response is pushed on top of the unchanged earlier slots
and nothing else in the client changes, and the response is what the decoder made of a
transport response with status `< 400`. -/
theorem StartTestItem_posts_under_top_and_pushes (c : Client) (env : Env)
    (sent : List Request) (name itemType startTime description : String) (tags : List String)
    (parameters : List (List (String × String))) :
    (∃ req k,
      (c.StartTestItem env sent name itemType startTime description tags parameters).sent =
        sent ++ List.replicate k req ∧
      (0 ≤ c.Retries → 0 < k) ∧
      req.Method = "POST" ∧ req.BaseURL = c.BaseURL ∧
      (∃ p, req.Body = .startTestItem p ∧ p.LaunchId = c.LaunchId ∧ p.Name = name ∧
        p.Type_ = itemType) ∧
      (c.Stack = [] → req.Path = c.ApiURL ++ "/" ++ c.Project ++ "/item") ∧
      (∀ rest, c.Stack = none :: rest → req.Path = c.ApiURL ++ "/" ++ c.Project ++ "/item") ∧
      (∀ P rest, c.Stack = some P :: rest →
        req.Path = c.ApiURL ++ "/" ++ c.Project ++ "/item/" ++ P)) ∧
    (∀ body,
      (c.StartTestItem env sent name itemType startTime description tags parameters).out =
        .returned (body, none) →
      (c.StartTestItem env sent name itemType startTime description tags parameters).client =
        { c with Stack := some body.Id :: c.Stack } ∧
      (c.StartTestItem env sent name itemType startTime description tags
        parameters).client.Stack.Peek = some body.Id ∧
      ∃ req resp n, (env.respond n req).resp = some resp ∧ resp.StatusCode < 400 ∧
        body = (env.decodeStartTestItem resp.Body.data {}).1) := by
  unfold Client.StartTestItem
  simp only [Client.newRequest, Payload.encodable, ↓reduceIte]
  constructor
  · obtain ⟨k, _, hpos, hsent⟩ := doLoop_sent env.respond
      { Method := "POST", BaseURL := c.BaseURL,
        Path := match c.Stack.Peek with
          | some parentItemId => c.ApiURL ++ "/" ++ c.Project ++ "/item/" ++ parentItemId
          | none => c.ApiURL ++ "/" ++ c.Project ++ "/item",
        Body := .startTestItem
          { Name := name, Description := description, Tags := tags,
            StartTime := if startTime ≠ "" then startTime else env.now sent.length,
            LaunchId := c.LaunchId, Type_ := itemType, Parameters := parameters },
        ContentType := "application/json", Accept := "application/json",
        UserAgent := c.UserAgent, Authorization := "bearer " ++ c.Token }
      env.decodeStartTestItem {} (c.Retries + 1).toNat sent
    refine ⟨
      { Method := "POST", BaseURL := c.BaseURL,
        Path := match c.Stack.Peek with
          | some parentItemId => c.ApiURL ++ "/" ++ c.Project ++ "/item/" ++ parentItemId
          | none => c.ApiURL ++ "/" ++ c.Project ++ "/item",
        Body := .startTestItem
          { Name := name, Description := description, Tags := tags,
            StartTime := if startTime ≠ "" then startTime else env.now sent.length,
            LaunchId := c.LaunchId, Type_ := itemType, Parameters := parameters },
        ContentType := "application/json", Accept := "application/json",
        UserAgent := c.UserAgent, Authorization := "bearer " ++ c.Token },
      k, ?_, fun hR => hpos (by omega), ?_, ?_, ?_, ?_, ?_, ?_⟩
    · rw [← hsent]
      split <;> rfl
    · rfl
    · rfl
    · exact ⟨_, rfl, rfl, rfl, rfl⟩
    · intro h; rw [h]; rfl
    · intro rest h; rw [h]; rfl
    · intro P rest h; rw [h]; rfl
  · intro body h
    split at h
    · simp at h
    · simp at h
    · rename_i x hout
      simp only [Outcome.returned.injEq, Prod.mk.injEq, and_true] at h
      subst h
      simp only [hout]
      obtain ⟨resp, n, hresp, hcode, -, hv⟩ := doLoop_returned_ok _ _ _ _ _ _ _ hout
      exact ⟨rfl, rfl, _, resp, n, hresp, hcode, hv⟩

/-- C6: when the top slot holds the item identifier `X`, `FinishTestItem` leaves the
client with exactly that slot removed (the depth decreases by one, the slots below and
every other field are unchanged) however the call ends: on success, on a returned
error, when the request cannot be built, and at a panic. Every request it issues is one
and the same PUT addressed to `<api>/<project>/item/<X>` carrying the status, the end
time and the issue, and at least one is issued when `Retries >= 0` and the issue can be
encoded. When the call returns a nil error, the message returned is the `Msg` the
decoder made of a transport response with status `< 400`. -/
theorem FinishTestItem_pops_top_and_targets_it (c : Client) (env : Env)
    (sent : List Request) (status endTime : String) (issue : Issue) (X : String)
    (rest : Stack) (h : c.Stack = some X :: rest) :
    (c.FinishTestItem env sent status endTime issue).client = { c with Stack := rest } ∧
    (c.FinishTestItem env sent status endTime issue).client.Stack.Len + 1 = c.Stack.Len ∧
    (∃ req k,
      (c.FinishTestItem env sent status endTime issue).sent = sent ++ List.replicate k req ∧
      (0 ≤ c.Retries → req.Body.encodable = true → 0 < k) ∧
      req.Method = "PUT" ∧ req.BaseURL = c.BaseURL ∧
      req.Path = c.ApiURL ++ "/" ++ c.Project ++ "/item/" ++ X ∧
      req.Body = .finishTestItem
        { Status := status,
          EndTime := if endTime ≠ "" then endTime else env.now sent.length,
          Issue := defaultIssue status issue }) ∧
    (∀ msg, (c.FinishTestItem env sent status endTime issue).out = .returned (msg, none) →
      ∃ req resp n, (env.respond n req).resp = some resp ∧ resp.StatusCode < 400 ∧
        msg = (env.decodeFinishTestItem resp.Body.data {}).1.Msg) := by
  unfold Client.FinishTestItem
  simp only [h, Stack.Pop, formatSlot, Client.newRequest]
  by_cases henc : (Payload.finishTestItem
      { Status := status,
        EndTime := if endTime ≠ "" then endTime else env.now sent.length,
        Issue := defaultIssue status issue }).encodable = true
  · simp only [henc, ↓reduceIte]
    refine ⟨?_, ?_, ?_, ?_⟩
    · split <;> rfl
    · split <;> simp [Stack.Len]
    · obtain ⟨k, _, hpos, hsent⟩ := doLoop_sent env.respond
        { Method := "PUT", BaseURL := c.BaseURL,
          Path := c.ApiURL ++ "/" ++ c.Project ++ "/item/" ++ X,
          Body := .finishTestItem
            { Status := status,
              EndTime := if endTime ≠ "" then endTime else env.now sent.length,
              Issue := defaultIssue status issue },
          ContentType := "application/json", Accept := "application/json",
          UserAgent := c.UserAgent, Authorization := "bearer " ++ c.Token }
        env.decodeFinishTestItem {} (c.Retries + 1).toNat sent
      refine ⟨
        { Method := "PUT", BaseURL := c.BaseURL,
          Path := c.ApiURL ++ "/" ++ c.Project ++ "/item/" ++ X,
          Body := .finishTestItem
            { Status := status,
              EndTime := if endTime ≠ "" then endTime else env.now sent.length,
              Issue := defaultIssue status issue },
          ContentType := "application/json", Accept := "application/json",
          UserAgent := c.UserAgent, Authorization := "bearer " ++ c.Token },
        k, ?_, fun hR _ => hpos (by omega), rfl, rfl, rfl, rfl⟩
      rw [← hsent]
      split <;> rfl
    · intro msg hmsg
      split at hmsg
      · simp at hmsg
      · simp at hmsg
      · rename_i x hout
        simp only [Outcome.returned.injEq, Prod.mk.injEq, and_true] at hmsg
        subst hmsg
        obtain ⟨resp, n, hresp, hcode, -, hv⟩ := doLoop_returned_ok _ _ _ _ _ _ _ hout
        exact ⟨_, resp, n, hresp, hcode, by rw [← hv]; rfl⟩
  · simp only [henc]
    refine ⟨rfl, by simp [Stack.Len], ?_, ?_⟩
    · refine ⟨
        { Method := "PUT", BaseURL := c.BaseURL,
          Path := c.ApiURL ++ "/" ++ c.Project ++ "/item/" ++ X,
          Body := .finishTestItem
            { Status := status,
              EndTime := if endTime ≠ "" then endTime else env.now sent.length,
              Issue := defaultIssue status issue },
          ContentType := "application/json", Accept := "application/json",
          UserAgent := c.UserAgent, Authorization := "bearer " ++ c.Token },
        0, by simp, fun _ hb => absurd hb henc, rfl, rfl, rfl, rfl⟩
    · intro msg hmsg
      simp at hmsg

/-- C6 on the tracker of `TestClient_FinishTestItem` (one item `parent_item_id`): the
slot is removed when the service accepts the finish request, and also when it rejects
every attempt. -/
theorem FinishTestItem_pops_top_and_targets_it_witness :
    (({ sampleClient with Stack := [some "parent_item_id"] }).FinishTestItem
        (sampleEnv (alwaysAccepts "finished")) [] "PASSED" "" none).client.Stack = [] ∧
    (({ sampleClient with Stack := [some "parent_item_id"] }).FinishTestItem
        (sampleEnv (alwaysAccepts "finished")) [] "PASSED" "" none).out =
      .returned ("finished", none) ∧
    (({ sampleClient with Stack := [some "parent_item_id"] }).FinishTestItem
        (sampleEnv alwaysRejects) [] "PASSED" "" none).client.Stack = [] ∧
    (({ sampleClient with Stack := [some "parent_item_id"] }).FinishTestItem
        (sampleEnv alwaysRejects) [] "PASSED" "" none).out =
      .returned ("", some .httpRetriesReachedErr) :=
  have h1 := FinishTestItem_pops_top_and_targets_it
    { sampleClient with Stack := [some "parent_item_id"] }
    (sampleEnv (alwaysAccepts "finished")) [] "PASSED" "" none "parent_item_id" [] rfl
  have h2 := FinishTestItem_pops_top_and_targets_it
    { sampleClient with Stack := [some "parent_item_id"] }
    (sampleEnv alwaysRejects) [] "PASSED" "" none "parent_item_id" [] rfl
  ⟨by rw [h1.1], by decide, by rw [h2.1], by decide⟩

/-- A `StartTestItem` that returns a response with a nil error pushes the identifier of
that response and changes nothing else in the client. -/
theorem StartTestItem_client_of_success (c : Client) (env : Env) (sent : List Request)
    (name itemType startTime description : String) (tags : List String)
    (parameters : List (List (String × String))) (body : StartTestItemResponse)
    (h : (c.StartTestItem env sent name itemType startTime description tags parameters).out =
      .returned (body, none)) :
    (c.StartTestItem env sent name itemType startTime description tags parameters).client =
      { c with Stack := some body.Id :: c.Stack } := by
  unfold Client.StartTestItem at h ⊢
  simp only [Client.newRequest, Payload.encodable, ↓reduceIte] at h ⊢
  split at h
  · simp at h
  · simp at h
  · rename_i x hout
    simp only [Outcome.returned.injEq, Prod.mk.injEq, and_true] at h
    subst h
    simp only [hout]
    rfl

/-- The call `FinishTestItem` pops the tracker once and changes nothing else in the client,
however the call ends. -/
theorem FinishTestItem_client (c : Client) (env : Env) (sent : List Request)
    (status endTime : String) (issue : Issue) :
    (c.FinishTestItem env sent status endTime issue).client =
      { c with Stack := c.Stack.drop 1 } := by
  have hpop : c.Stack.Pop.2 = c.Stack.drop 1 := by
    cases c.Stack <;> rfl
  unfold Client.FinishTestItem
  simp only [hpop, Client.newRequest]
  split
  · rfl
  · split <;> rfl

/-- After a run of successful starts the tracker holds the returned identifiers, last
started on top, above the slots it held before. -/
theorem startItems_client (env : Env) (starts : List StartItemArgs) :
    ∀ (c : Client) (sent : List Request),
      (∀ o ∈ (startItems env starts c sent).outs, ∃ body, o = .returned (body, none)) →
      (startItems env starts c sent).client =
        { c with Stack :=
            (startedIds (startItems env starts c sent).outs).reverse.map some ++ c.Stack } ∧
      (startedIds (startItems env starts c sent).outs).length = starts.length := by
  induction starts with
  | nil => intro c sent _; simp [startItems, startedIds]
  | cons a rest ih =>
    intro c sent hok
    simp only [startItems] at hok ⊢
    obtain ⟨body, hbody⟩ := hok _ (List.mem_cons_self _ _)
    have hc := StartTestItem_client_of_success c env sent a.name a.itemType a.startTime
      a.description a.tags a.parameters body hbody
    obtain ⟨ih1, ih2⟩ := ih _ _ (fun o ho => hok o (List.mem_cons_of_mem _ ho))
    rw [ih1, hbody, hc]
    simp [startedIds, ih2, ← hc]

/-- A run of finishes removes one slot per call from the top of the tracker and changes
nothing else in the client. -/
theorem finishItems_client (env : Env) (finishes : List FinishItemArgs) :
    ∀ (c : Client) (sent : List Request),
      (finishItems env finishes c sent).client =
        { c with Stack := c.Stack.drop finishes.length } := by
  induction finishes with
  | nil => intro c sent; simp [finishItems]
  | cons a rest ih =>
    intro c sent
    simp only [finishItems]
    rw [ih, FinishTestItem_client]
    simp [Nat.add_comm]

/-- C5: for every `N`, every initial client and every transport, `N` `StartTestItem`
calls that each return a response with a nil error, followed by `N` `FinishTestItem`
calls ending in any way, leave the client, and so the tracker's depth and slots, as
before the sequence. The finishes consume the started items in reverse order of their
start: after the starts the tracker holds the returned identifiers, last started on top
of the earlier slots, and after the first `j` finishes the `j` most recently started
identifiers are gone and the others remain. -/
theorem start_then_finish_restores_tracker (env : Env) (c : Client) (sent : List Request)
    (starts : List StartItemArgs) (finishes : List FinishItemArgs)
    (hlen : finishes.length = starts.length)
    (hok : ∀ o ∈ (startItems env starts c sent).outs, ∃ body, o = .returned (body, none)) :
    (finishItems env finishes (startItems env starts c sent).client
        (startItems env starts c sent).sent).client = c ∧
    (finishItems env finishes (startItems env starts c sent).client
        (startItems env starts c sent).sent).client.Stack.Len = c.Stack.Len ∧
    (startItems env starts c sent).client.Stack =
      (startedIds (startItems env starts c sent).outs).reverse.map some ++ c.Stack ∧
    (startedIds (startItems env starts c sent).outs).length = starts.length ∧
    ∀ j, j ≤ finishes.length →
      (finishItems env (finishes.take j) (startItems env starts c sent).client
          (startItems env starts c sent).sent).client.Stack =
        ((startedIds (startItems env starts c sent).outs).reverse.drop j).map some ++
          c.Stack := by
  obtain ⟨hc, hids⟩ := startItems_client env starts c sent hok
  have hdrop : ∀ j, j ≤ finishes.length →
      (finishItems env (finishes.take j) (startItems env starts c sent).client
          (startItems env starts c sent).sent).client =
        { c with Stack :=
            ((startedIds (startItems env starts c sent).outs).reverse.drop j).map some ++
              c.Stack } := by
    intro j hj
    rw [finishItems_client, hc]
    have hjl : j ≤ ((startedIds (startItems env starts c sent).outs).reverse.map some).length := by
      simp [hids]; omega
    simp only [List.length_take, Nat.min_eq_left hj, List.drop_append_of_le_length hjl,
      List.map_drop]
  have hall := hdrop finishes.length (Nat.le_refl _)
  rw [List.take_length] at hall
  have hnil : (startedIds (startItems env starts c sent).outs).reverse.drop finishes.length
      = [] := by
    apply List.drop_eq_nil_of_le
    simp [hids, hlen]
  rw [hnil] at hall
  refine ⟨by simpa using hall, by rw [hall]; simp, by rw [hc], hids, ?_⟩
  intro j hj
  rw [hdrop j hj]

/-- C5 at `N = 2` on a session with an open launch: `suite` and `case` are started,
then two finishes (one `PASSED`, one `SKIPPED`) bring the tracker back to the single
root slot; after the first finish only `suite_id` remains on top of it. -/
theorem start_then_finish_restores_tracker_witness :
    (startItems (sampleEnv namingService)
        [⟨"suite", "SUITE", "", "", [], []⟩, ⟨"case", "TEST", "", "", [], []⟩]
        { sampleClient with Stack := [none], LaunchId := "id1" } []).client.Stack =
      [some "case_id", some "suite_id", none] ∧
    (finishItems (sampleEnv namingService) [⟨"PASSED", "", none⟩, ⟨"SKIPPED", "", none⟩]
        (startItems (sampleEnv namingService)
          [⟨"suite", "SUITE", "", "", [], []⟩, ⟨"case", "TEST", "", "", [], []⟩]
          { sampleClient with Stack := [none], LaunchId := "id1" } []).client
        (startItems (sampleEnv namingService)
          [⟨"suite", "SUITE", "", "", [], []⟩, ⟨"case", "TEST", "", "", [], []⟩]
          { sampleClient with Stack := [none], LaunchId := "id1" } []).sent).client =
      { sampleClient with Stack := [none], LaunchId := "id1" } ∧
    (finishItems (sampleEnv namingService) [⟨"PASSED", "", none⟩]
        (startItems (sampleEnv namingService)
          [⟨"suite", "SUITE", "", "", [], []⟩, ⟨"case", "TEST", "", "", [], []⟩]
          { sampleClient with Stack := [none], LaunchId := "id1" } []).client
        (startItems (sampleEnv namingService)
          [⟨"suite", "SUITE", "", "", [], []⟩, ⟨"case", "TEST", "", "", [], []⟩]
          { sampleClient with Stack := [none], LaunchId := "id1" } []).sent).client.Stack =
      [some "suite_id", none] :=
  have houts : (startItems (sampleEnv namingService)
      [⟨"suite", "SUITE", "", "", [], []⟩, ⟨"case", "TEST", "", "", [], []⟩]
      { sampleClient with Stack := [none], LaunchId := "id1" } []).outs =
      [.returned ({ Id := "suite_id" }, none), .returned ({ Id := "case_id" }, none)] := by
    decide
  have h := start_then_finish_restores_tracker (sampleEnv namingService)
    { sampleClient with Stack := [none], LaunchId := "id1" } []
    [⟨"suite", "SUITE", "", "", [], []⟩, ⟨"case", "TEST", "", "", [], []⟩]
    [⟨"PASSED", "", none⟩, ⟨"SKIPPED", "", none⟩] rfl
    (by
      intro o ho
      rw [houts] at ho
      simp only [List.mem_cons, List.mem_singleton, List.not_mem_nil, or_false] at ho
      rcases ho with rfl | rfl
      · exact ⟨_, rfl⟩
      · exact ⟨_, rfl⟩)
  ⟨by rw [h.2.2.1, houts]; rfl, h.1, by
    have h1 := h.2.2.2.2 1 (by decide)
    rw [houts] at h1
    exact h1⟩

/-- C11: `FinishLaunch` on a session whose launch identifier is empty returns the
zero-valued response with `noLaunchIdErr`, whose text is "launch is not started, no
LaunchId", issues no request and leaves the client, tracker included, as it was. -/
theorem FinishLaunch_without_launch_fails (c : Client) (env : Env) (sent : List Request)
    (status endTime : String) (h : c.LaunchId = "") :
    (c.FinishLaunch env sent status endTime).out =
      .returned ({ Id := "", Link := "", Number := 0 }, some .noLaunchIdErr) ∧
    GoError.noLaunchIdErr.Error = "launch is not started, no LaunchId" ∧
    (c.FinishLaunch env sent status endTime).sent = sent ∧
    (c.FinishLaunch env sent status endTime).client = c := by
  simp [Client.FinishLaunch, h, GoError.Error]

/-- C11 on a fresh client, before any `StartLaunch`, against a service that would accept
the request: the error is returned and nothing is sent. -/
theorem FinishLaunch_without_launch_fails_witness :
    sampleClient.LaunchId = "" ∧
    (sampleClient.FinishLaunch (sampleEnv (alwaysAccepts "1")) [] "PASSED" "").out =
      .returned ({ Id := "", Link := "", Number := 0 }, some .noLaunchIdErr) ∧
    (sampleClient.FinishLaunch (sampleEnv (alwaysAccepts "1")) [] "PASSED" "").sent = [] ∧
    (sampleClient.FinishLaunch (sampleEnv (alwaysAccepts "1")) [] "PASSED" "").client.Stack
      = [] :=
  have h := FinishLaunch_without_launch_fails sampleClient (sampleEnv (alwaysAccepts "1")) []
    "PASSED" "" rfl
  ⟨rfl, h.1, h.2.2.1, by rw [h.2.2.2]; rfl⟩

/-- The issue sent for a skipped item without an issue is `{issue_type: NOT_ISSUE}`; in
every other case it is the issue given. -/
theorem defaultIssue_cases (status : String) (issue : Issue) :
    (issue = none → status = "SKIPPED" →
      defaultIssue status issue = some [("issue_type", JValue.str "NOT_ISSUE")]) ∧
    (¬ (issue = none ∧ status = "SKIPPED") → defaultIssue status issue = issue) := by
  constructor
  · intro h1 h2
    simp [defaultIssue, h1, h2]
  · intro h
    simp only [defaultIssue, h, if_false]

/-- Every request `FinishTestItem` issues is one and the same PUT, addressed to the item
popped from the tracker, carrying the status, the end time and the issue after
defaulting; at least one is issued when `Retries >= 0` and the issue can be encoded. -/
theorem FinishTestItem_sent (c : Client) (env : Env) (sent : List Request)
    (status endTime : String) (issue : Issue) :
    ∃ req k,
      (c.FinishTestItem env sent status endTime issue).sent = sent ++ List.replicate k req ∧
      (0 ≤ c.Retries → req.Body.encodable = true → 0 < k) ∧
      req.Method = "PUT" ∧
      req.Path = c.ApiURL ++ "/" ++ c.Project ++ "/item/" ++ formatSlot c.Stack.Pop.1 ∧
      req.Body = .finishTestItem
        { Status := status,
          EndTime := if endTime ≠ "" then endTime else env.now sent.length,
          Issue := defaultIssue status issue } := by
  unfold Client.FinishTestItem
  simp only [Client.newRequest]
  by_cases henc : (Payload.finishTestItem
      { Status := status,
        EndTime := if endTime ≠ "" then endTime else env.now sent.length,
        Issue := defaultIssue status issue }).encodable = true
  · simp only [henc, ↓reduceIte]
    obtain ⟨k, _, hpos, hsent⟩ := doLoop_sent env.respond
        { Method := "PUT", BaseURL := c.BaseURL,
          Path := c.ApiURL ++ "/" ++ c.Project ++ "/item/" ++ formatSlot c.Stack.Pop.1,
          Body := .finishTestItem
            { Status := status,
              EndTime := if endTime ≠ "" then endTime else env.now sent.length,
              Issue := defaultIssue status issue },
          ContentType := "application/json", Accept := "application/json",
          UserAgent := c.UserAgent, Authorization := "bearer " ++ c.Token }
        env.decodeFinishTestItem {} (c.Retries + 1).toNat sent
    refine ⟨
        { Method := "PUT", BaseURL := c.BaseURL,
          Path := c.ApiURL ++ "/" ++ c.Project ++ "/item/" ++ formatSlot c.Stack.Pop.1,
          Body := .finishTestItem
            { Status := status,
              EndTime := if endTime ≠ "" then endTime else env.now sent.length,
              Issue := defaultIssue status issue },
          ContentType := "application/json", Accept := "application/json",
          UserAgent := c.UserAgent, Authorization := "bearer " ++ c.Token },
        k, ?_, fun hR _ => hpos (by omega), rfl, rfl, rfl⟩
    rw [← hsent]
    split <;> rfl
  · simp only [henc]
    exact ⟨
        { Method := "PUT", BaseURL := c.BaseURL,
          Path := c.ApiURL ++ "/" ++ c.Project ++ "/item/" ++ formatSlot c.Stack.Pop.1,
          Body := .finishTestItem
            { Status := status,
              EndTime := if endTime ≠ "" then endTime else env.now sent.length,
              Issue := defaultIssue status issue },
          ContentType := "application/json", Accept := "application/json",
          UserAgent := c.UserAgent, Authorization := "bearer " ++ c.Token },
        0, by simp, fun _ hb => absurd hb henc, rfl, rfl, rfl⟩

/-- Every request `FinishTestItemId` issues is one and the same PUT, addressed to the
given item, carrying the status, the end time and the issue after defaulting; at least
one is issued when `Retries >= 0` and the issue can be encoded. -/
theorem FinishTestItemId_sent (c : Client) (env : Env) (sent : List Request)
    (id status endTime : String) (issue : Issue) :
    ∃ req k,
      (c.FinishTestItemId env sent id status endTime issue).sent =
        sent ++ List.replicate k req ∧
      (0 ≤ c.Retries → req.Body.encodable = true → 0 < k) ∧
      req.Method = "PUT" ∧
      req.Path = c.ApiURL ++ "/" ++ c.Project ++ "/item/" ++ id ∧
      req.Body = .finishTestItem
        { Status := status,
          EndTime := if endTime ≠ "" then endTime else env.now sent.length,
          Issue := defaultIssue status issue } := by
  unfold Client.FinishTestItemId
  simp only [Client.newRequest]
  by_cases henc : (Payload.finishTestItem
      { Status := status,
        EndTime := if endTime ≠ "" then endTime else env.now sent.length,
        Issue := defaultIssue status issue }).encodable = true
  · simp only [henc, ↓reduceIte]
    obtain ⟨k, _, hpos, hsent⟩ := doLoop_sent env.respond
        { Method := "PUT", BaseURL := c.BaseURL,
          Path := c.ApiURL ++ "/" ++ c.Project ++ "/item/" ++ id,
          Body := .finishTestItem
            { Status := status,
              EndTime := if endTime ≠ "" then endTime else env.now sent.length,
              Issue := defaultIssue status issue },
          ContentType := "application/json", Accept := "application/json",
          UserAgent := c.UserAgent, Authorization := "bearer " ++ c.Token }
        env.decodeFinishTestItem {} (c.Retries + 1).toNat sent
    refine ⟨
        { Method := "PUT", BaseURL := c.BaseURL,
          Path := c.ApiURL ++ "/" ++ c.Project ++ "/item/" ++ id,
          Body := .finishTestItem
            { Status := status,
              EndTime := if endTime ≠ "" then endTime else env.now sent.length,
              Issue := defaultIssue status issue },
          ContentType := "application/json", Accept := "application/json",
          UserAgent := c.UserAgent, Authorization := "bearer " ++ c.Token },
        k, ?_, fun hR _ => hpos (by omega), rfl, rfl, rfl⟩
    rw [← hsent]
    split <;> rfl
  · simp only [henc]
    exact ⟨
        { Method := "PUT", BaseURL := c.BaseURL,
          Path := c.ApiURL ++ "/" ++ c.Project ++ "/item/" ++ id,
          Body := .finishTestItem
            { Status := status,
              EndTime := if endTime ≠ "" then endTime else env.now sent.length,
              Issue := defaultIssue status issue },
          ContentType := "application/json", Accept := "application/json",
          UserAgent := c.UserAgent, Authorization := "bearer " ++ c.Token },
        0, by simp, fun _ hb => absurd hb henc, rfl, rfl, rfl⟩

/-- C12: for `FinishTestItem` and `FinishTestItemId` alike, and for every end time, every
request issued carries a finish payload with the given status whose issue field is
exactly `{issue_type: NOT_ISSUE}` when no issue is supplied and the status is
`SKIPPED`, and the issue supplied by the caller, unchanged, in every other case; at
least one request is issued when `Retries >= 0` and the issue can be encoded. -/
theorem finish_issue_defaults_to_not_issue_on_skip (c : Client) (env : Env)
    (sent : List Request) (id status endTime : String) (issue : Issue) :
    (∃ req k p,
      (c.FinishTestItem env sent status endTime issue).sent = sent ++ List.replicate k req ∧
      (0 ≤ c.Retries → req.Body.encodable = true → 0 < k) ∧
      req.Body = .finishTestItem p ∧ p.Status = status ∧
      (issue = none → status = "SKIPPED" →
        p.Issue = some [("issue_type", JValue.str "NOT_ISSUE")]) ∧
      (¬ (issue = none ∧ status = "SKIPPED") → p.Issue = issue)) ∧
    (∃ req k p,
      (c.FinishTestItemId env sent id status endTime issue).sent =
        sent ++ List.replicate k req ∧
      (0 ≤ c.Retries → req.Body.encodable = true → 0 < k) ∧
      req.Body = .finishTestItem p ∧ p.Status = status ∧
      (issue = none → status = "SKIPPED" →
        p.Issue = some [("issue_type", JValue.str "NOT_ISSUE")]) ∧
      (¬ (issue = none ∧ status = "SKIPPED") → p.Issue = issue)) := by
  obtain ⟨hskip, hkeep⟩ := defaultIssue_cases status issue
  constructor
  · obtain ⟨req, k, hsent, hpos, -, -, hbody⟩ :=
      FinishTestItem_sent c env sent status endTime issue
    exact ⟨req, k, _, hsent, hpos, hbody, rfl, hskip, hkeep⟩
  · obtain ⟨req, k, hsent, hpos, -, -, hbody⟩ :=
      FinishTestItemId_sent c env sent id status endTime issue
    exact ⟨req, k, _, hsent, hpos, hbody, rfl, hskip, hkeep⟩

/-- Every request `StartTestItem` issues is one and the same POST carrying the
start-item payload, addressed to the root collection when `Peek` gives nil and to the
collection of the item on top otherwise; at least one is issued when `Retries >= 0`. -/
theorem StartTestItem_sent (c : Client) (env : Env) (sent : List Request)
    (name itemType startTime description : String) (tags : List String)
    (parameters : List (List (String × String))) :
    ∃ req k,
      (c.StartTestItem env sent name itemType startTime description tags parameters).sent =
        sent ++ List.replicate k req ∧
      (0 ≤ c.Retries → 0 < k) ∧
      req.Method = "POST" ∧
      (c.Stack.Peek = none → req.Path = c.ApiURL ++ "/" ++ c.Project ++ "/item") ∧
      (∀ P, c.Stack.Peek = some P →
        req.Path = c.ApiURL ++ "/" ++ c.Project ++ "/item/" ++ P) ∧
      ∃ p, req.Body = .startTestItem p ∧ p.Name = name ∧ p.LaunchId = c.LaunchId := by
  unfold Client.StartTestItem
  simp only [Client.newRequest, Payload.encodable, ↓reduceIte]
  obtain ⟨k, _, hpos, hsent⟩ := doLoop_sent env.respond
      { Method := "POST", BaseURL := c.BaseURL,
        Path := match c.Stack.Peek with
          | some parentItemId => c.ApiURL ++ "/" ++ c.Project ++ "/item/" ++ parentItemId
          | none => c.ApiURL ++ "/" ++ c.Project ++ "/item",
        Body := .startTestItem
          { Name := name, Description := description, Tags := tags,
            StartTime := if startTime ≠ "" then startTime else env.now sent.length,
            LaunchId := c.LaunchId, Type_ := itemType, Parameters := parameters },
        ContentType := "application/json", Accept := "application/json",
        UserAgent := c.UserAgent, Authorization := "bearer " ++ c.Token }
      env.decodeStartTestItem {} (c.Retries + 1).toNat sent
  refine ⟨
      { Method := "POST", BaseURL := c.BaseURL,
        Path := match c.Stack.Peek with
          | some parentItemId => c.ApiURL ++ "/" ++ c.Project ++ "/item/" ++ parentItemId
          | none => c.ApiURL ++ "/" ++ c.Project ++ "/item",
        Body := .startTestItem
          { Name := name, Description := description, Tags := tags,
            StartTime := if startTime ≠ "" then startTime else env.now sent.length,
            LaunchId := c.LaunchId, Type_ := itemType, Parameters := parameters },
        ContentType := "application/json", Accept := "application/json",
        UserAgent := c.UserAgent, Authorization := "bearer " ++ c.Token },
      k, ?_, fun hR => hpos (by omega), rfl, ?_, ?_, ⟨_, rfl, rfl, rfl⟩⟩
  · rw [← hsent]
    split <;> rfl
  · intro h; simp only [h]
  · intro P h; simp only [h]

/-- With an item identifier on top of the tracker, every request `Log` issues is one and
the same POST to the log collection whose payload targets that identifier; at least one
is issued when `Retries >= 0`. The client is left as it was. -/
theorem Log_sent (c : Client) (env : Env) (sent : List Request) (message level id : String)
    (h : c.Stack.Peek = some id) :
    (c.Log env sent message level).client = c ∧
    ∃ req k,
      (c.Log env sent message level).sent = sent ++ List.replicate k req ∧
      (0 ≤ c.Retries → 0 < k) ∧
      req.Method = "POST" ∧ req.Path = c.ApiURL ++ "/" ++ c.Project ++ "/log" ∧
      ∃ p, req.Body = .log p ∧ p.ItemId = id ∧ p.Message = message ∧ p.Level = level := by
  unfold Client.Log
  simp only [h, Client.newRequest, Payload.encodable, ↓reduceIte]
  constructor
  · split <;> rfl
  · obtain ⟨k, _, hpos, hsent⟩ := doLoop_sent env.respond
      { Method := "POST", BaseURL := c.BaseURL,
        Path := c.ApiURL ++ "/" ++ c.Project ++ "/log",
        Body := .log
          { ItemId := id, Time := env.now sent.length, Message := message, Level := level },
        ContentType := "application/json", Accept := "application/json",
        UserAgent := c.UserAgent, Authorization := "bearer " ++ c.Token }
      env.decodeLog {} (c.Retries + 1).toNat sent
    refine ⟨
      { Method := "POST", BaseURL := c.BaseURL,
        Path := c.ApiURL ++ "/" ++ c.Project ++ "/log",
        Body := .log
          { ItemId := id, Time := env.now sent.length, Message := message, Level := level },
        ContentType := "application/json", Accept := "application/json",
        UserAgent := c.UserAgent, Authorization := "bearer " ++ c.Token },
      k, ?_, fun hR => hpos (by omega), rfl, rfl, ⟨_, rfl, rfl, rfl, rfl⟩⟩
    rw [← hsent]
    split <;> rfl

/-- A `StartTestItemId` that returns a response with a nil error pushes the identifier
of that response and changes nothing else in the client. -/
theorem StartTestItemId_client_of_success (c : Client) (env : Env) (sent : List Request)
    (parentItemId name itemType startTime description : String) (tags : List String)
    (parameters : List (List (String × String))) (body : StartTestItemResponse)
    (h : (c.StartTestItemId env sent parentItemId name itemType startTime description tags
      parameters).out = .returned (body, none)) :
    (c.StartTestItemId env sent parentItemId name itemType startTime description tags
      parameters).client = { c with Stack := some body.Id :: c.Stack } := by
  unfold Client.StartTestItemId at h ⊢
  simp only [Client.newRequest, Payload.encodable, ↓reduceIte] at h ⊢
  split at h
  · simp at h
  · simp at h
  · rename_i x hout
    simp only [Outcome.returned.injEq, Prod.mk.injEq, and_true] at h
    subst h
    simp only [hout]
    rfl

/-- The call `FinishTestItemId` leaves the client, tracker included, as it was, however
the call ends. -/
theorem FinishTestItemId_client (c : Client) (env : Env) (sent : List Request)
    (id status endTime : String) (issue : Issue) :
    (c.FinishTestItemId env sent id status endTime issue).client = c := by
  unfold Client.FinishTestItemId
  simp only [Client.newRequest]
  split
  · rfl
  · split <;> rfl

/-- C16: `FinishTestItemId` leaves the client, tracker included, as it was whatever the
remote outcome, while a `StartTestItemId` that returns a response with a nil error
pushes the identifier of that response. Hence after a successful `StartTestItemId`
followed by `FinishTestItemId` on the returned identifier the tracker is one slot
deeper than before, with the identifier of the already finished item on top: the next
`StartTestItem` posts to that item's collection and the next `Log` targets it. -/
theorem finish_by_id_leaves_started_item_on_tracker (c : Client) (env : Env)
    (sent : List Request) (parentItemId name itemType startTime description : String)
    (tags : List String) (parameters : List (List (String × String)))
    (body : StartTestItemResponse) (status endTime : String) (issue : Issue)
    (h : (c.StartTestItemId env sent parentItemId name itemType startTime description tags
        parameters).out = .returned (body, none)) :
    (∀ (c2 : Client) (sent2 : List Request) (id2 : String),
      (c2.FinishTestItemId env sent2 id2 status endTime issue).client = c2) ∧
    (c.StartTestItemId env sent parentItemId name itemType startTime description tags
        parameters).client = { c with Stack := some body.Id :: c.Stack } ∧
    ((c.StartTestItemId env sent parentItemId name itemType startTime description tags
          parameters).client.FinishTestItemId env
        (c.StartTestItemId env sent parentItemId name itemType startTime description tags
          parameters).sent body.Id status endTime issue).client.Stack = some body.Id :: c.Stack ∧
    ((c.StartTestItemId env sent parentItemId name itemType startTime description tags
          parameters).client.FinishTestItemId env
        (c.StartTestItemId env sent parentItemId name itemType startTime description tags
          parameters).sent body.Id status endTime issue).client.Stack.Len = c.Stack.Len + 1 ∧
    ((c.StartTestItemId env sent parentItemId name itemType startTime description tags
          parameters).client.FinishTestItemId env
        (c.StartTestItemId env sent parentItemId name itemType startTime description tags
          parameters).sent body.Id status endTime issue).client.Stack.Peek = some body.Id ∧
    (∀ name2 itemType2 startTime2 description2 tags2 parameters2, ∃ req k,
      (((c.StartTestItemId env sent parentItemId name itemType startTime description tags
          parameters).client.FinishTestItemId env
        (c.StartTestItemId env sent parentItemId name itemType startTime description tags
          parameters).sent body.Id status endTime issue).client.StartTestItem env ((c.StartTestItemId env sent parentItemId name itemType startTime description tags
          parameters).client.FinishTestItemId env
        (c.StartTestItemId env sent parentItemId name itemType startTime description tags
          parameters).sent body.Id status endTime issue).sent name2 itemType2 startTime2 description2
        tags2 parameters2).sent = ((c.StartTestItemId env sent parentItemId name itemType startTime description tags
          parameters).client.FinishTestItemId env
        (c.StartTestItemId env sent parentItemId name itemType startTime description tags
          parameters).sent body.Id status endTime issue).sent ++ List.replicate k req ∧
      (0 ≤ c.Retries → 0 < k) ∧
      req.Path = c.ApiURL ++ "/" ++ c.Project ++ "/item/" ++ body.Id) ∧
    (∀ message level, ∃ req k p,
      (((c.StartTestItemId env sent parentItemId name itemType startTime description tags
          parameters).client.FinishTestItemId env
        (c.StartTestItemId env sent parentItemId name itemType startTime description tags
          parameters).sent body.Id status endTime issue).client.Log env ((c.StartTestItemId env sent parentItemId name itemType startTime description tags
          parameters).client.FinishTestItemId env
        (c.StartTestItemId env sent parentItemId name itemType startTime description tags
          parameters).sent body.Id status endTime issue).sent message level).sent =
        ((c.StartTestItemId env sent parentItemId name itemType startTime description tags
          parameters).client.FinishTestItemId env
        (c.StartTestItemId env sent parentItemId name itemType startTime description tags
          parameters).sent body.Id status endTime issue).sent ++ List.replicate k req ∧
      (0 ≤ c.Retries → 0 < k) ∧
      req.Body = .log p ∧ p.ItemId = body.Id) := by
  have hc := StartTestItemId_client_of_success c env sent parentItemId name itemType
    startTime description tags parameters body h
  have hcl : ((c.StartTestItemId env sent parentItemId name itemType startTime description tags
          parameters).client.FinishTestItemId env
        (c.StartTestItemId env sent parentItemId name itemType startTime description tags
          parameters).sent body.Id status endTime issue).client = { c with Stack := some body.Id :: c.Stack } := by
    rw [FinishTestItemId_client, hc]
  refine ⟨fun c2 sent2 id2 => FinishTestItemId_client c2 env sent2 id2 status endTime issue,
    hc, by rw [hcl], by rw [hcl]; simp [Stack.Len], by rw [hcl]; rfl, ?_, ?_⟩
  · intro name2 itemType2 startTime2 description2 tags2 parameters2
    rw [hcl]
    obtain ⟨req, k, hsent, hpos, -, -, hpath, -⟩ :=
      StartTestItem_sent { c with Stack := some body.Id :: c.Stack } env ((c.StartTestItemId env sent parentItemId name itemType startTime description tags
          parameters).client.FinishTestItemId env
        (c.StartTestItemId env sent parentItemId name itemType startTime description tags
          parameters).sent body.Id status endTime issue).sent
        name2 itemType2 startTime2 description2 tags2 parameters2
    exact ⟨req, k, hsent, hpos, hpath body.Id rfl⟩
  · intro message level
    rw [hcl]
    obtain ⟨-, req, k, hsent, hpos, -, -, p, hbody, hid, -⟩ :=
      Log_sent { c with Stack := some body.Id :: c.Stack } env ((c.StartTestItemId env sent parentItemId name itemType startTime description tags
          parameters).client.FinishTestItemId env
        (c.StartTestItemId env sent parentItemId name itemType startTime description tags
          parameters).sent body.Id status endTime issue).sent
        message level body.Id rfl
    exact ⟨req, k, p, hsent, hpos, hbody, hid⟩

/-- C16 on a session with an open launch: `suite` is started by explicit parent and
finished by its identifier `suite_id`; the tracker still holds `suite_id` above the
root slot. -/
theorem finish_by_id_leaves_started_item_on_tracker_witness :
    (({ sampleClient with Stack := [none], LaunchId := "id1" }).StartTestItemId
        (sampleEnv namingService) [] "" "suite" "SUITE" "" "" [] []).out =
      .returned ({ Id := "suite_id" }, none) ∧
    ((({ sampleClient with Stack := [none], LaunchId := "id1" }).StartTestItemId
        (sampleEnv namingService) [] "" "suite" "SUITE" "" "" [] []).client.FinishTestItemId
      (sampleEnv namingService)
      (({ sampleClient with Stack := [none], LaunchId := "id1" }).StartTestItemId
        (sampleEnv namingService) [] "" "suite" "SUITE" "" "" [] []).sent
      "suite_id" "PASSED" "" none).client.Stack = [some "suite_id", none] :=
  have h0 : (({ sampleClient with Stack := [none], LaunchId := "id1" }).StartTestItemId
      (sampleEnv namingService) [] "" "suite" "SUITE" "" "" [] []).out =
      .returned ({ Id := "suite_id" }, none) := by decide
  have h := finish_by_id_leaves_started_item_on_tracker
    { sampleClient with Stack := [none], LaunchId := "id1" } (sampleEnv namingService) []
    "" "suite" "SUITE" "" "" [] [] { Id := "suite_id" } "PASSED" "" none h0
  ⟨h0, h.2.2.1⟩

/-- C15 (the code on an empty tracker): for every status and end time, `FinishTestItem`
without an issue on the empty tracker of a fresh client gets nil from `Pop` and goes on:
it issues a PUT addressed to `/api/v1/testproj/item/%!s(<nil>)` and, the service
answering 200, returns the message of the response with a nil error. -/
theorem FinishTestItem_on_empty_tracker_sends_request (status endTime : String) :
    sampleClient.Stack = [] ∧
    (sampleClient.FinishTestItem (sampleEnv (alwaysAccepts "finished")) [] status endTime
        none).out = .returned ("finished", none) ∧
    (sampleClient.FinishTestItem (sampleEnv (alwaysAccepts "finished")) [] status endTime
        none).client.Stack = [] ∧
    (sampleClient.FinishTestItem (sampleEnv (alwaysAccepts "finished")) [] status endTime
        none).sent.map (fun req => (req.Method, req.Path)) =
      [("PUT", "/api/v1/testproj/item/%!s(<nil>)")] := by
  have henc : ∀ t : String, (Payload.finishTestItem
      { Status := status, EndTime := t, Issue := defaultIssue status none }).encodable
      = true := by
    intro t
    by_cases hs : status = "SKIPPED" <;> simp [Payload.encodable, defaultIssue, hs]
  have hn : ((3 : Int) + 1).toNat = 3 + 1 := by decide
  refine ⟨rfl, ?_, ?_, ?_⟩ <;>
    simp [Client.FinishTestItem, Client.newRequest, henc, Client.do_, sampleClient, New,
      Stack.New, Stack.Pop, formatSlot, hn, doLoop, sampleEnv, alwaysAccepts, replyWith,
      sampleDecodeMsg]

/-- A `StartLaunch` that returns a response with a nil error ran with `Retries >= 0`,
records the identifier of the response and pushes one root slot. -/
theorem StartLaunch_client_of_success (c : Client) (env : Env) (sent : List Request)
    (name description startTime : String) (tags : List String) (mode : String)
    (body : StartLaunchResponse)
    (h : (c.StartLaunch env sent name description startTime tags mode).out =
      .returned (body, none)) :
    0 ≤ c.Retries ∧
    (c.StartLaunch env sent name description startTime tags mode).client =
      { c with Stack := none :: c.Stack, LaunchId := body.Id } := by
  constructor
  · by_contra hneg
    have hn : (c.Retries + 1).toNat = 0 := by omega
    simp [Client.StartLaunch, Client.newRequest, Payload.encodable, Client.do_, hn, doLoop]
      at h
  · unfold Client.StartLaunch at h ⊢
    simp only [Client.newRequest, Payload.encodable, ↓reduceIte] at h ⊢
    split at h
    · simp at h
    · simp at h
    · rename_i x hout
      simp only [Outcome.returned.injEq, Prod.mk.injEq, and_true] at h
      subst h
      simp only [hout]
      split_ifs <;> rfl

/-- A `FinishLaunch` that returns a nil error removes the top slot of the tracker, if
there is one, and changes nothing else in the client. -/
theorem FinishLaunch_client_of_success (c : Client) (env : Env) (sent : List Request)
    (status endTime : String) (body : FinishLaunchResponse)
    (h : (c.FinishLaunch env sent status endTime).out = .returned (body, none)) :
    (c.FinishLaunch env sent status endTime).client = { c with Stack := c.Stack.drop 1 } := by
  unfold Client.FinishLaunch at h ⊢
  by_cases hid : c.LaunchId = ""
  · simp [hid] at h
  · simp only [hid, ↓reduceIte, Client.newRequest, Payload.encodable] at h ⊢
    split at h
    · simp at h
    · simp at h
    · rename_i x hout
      simp only [hout]
      cases hs : c.Stack with
      | nil => cases c; simp_all [Stack.Len]
      | cons top rest => simp [Stack.Len, Stack.Pop]

/-- C13: on a client with an empty tracker, when the launch, the two item starts, the
log and the launch finish of the scenario each return a nil error, the tracker depths
after the seven calls are 1, 2, 3, 3, 2, 1, 0; every request of the `suite` start goes to
the root collection, every request of the `case` start to the collection of the
identifier returned for `suite`, every request of the log targets the identifier
returned for `case`, and the requests of the two finishes are addressed to the
identifier of `case` and then to that of `suite`; each of these calls issues at least
one request. -/
theorem scenario_depths_and_targets (env : Env) (c : Client) (L : StartLaunchResponse)
    (S C : StartTestItemResponse) (logId : String) (F : FinishLaunchResponse)
    (hfresh : c.Stack = [])
    (hL : (runScenario env c).launch.out = .returned (L, none))
    (hS : (runScenario env c).suite.out = .returned (S, none))
    (hC : (runScenario env c).testCase.out = .returned (C, none))
    (hlog : (runScenario env c).log.out = .returned (logId, none))
    (hF : (runScenario env c).finishLaunch.out = .returned (F, none)) :
    (runScenario env c).depths = [1, 2, 3, 3, 2, 1, 0] ∧
    (∃ req k, (runScenario env c).suite.sent =
        (runScenario env c).launch.sent ++ List.replicate k req ∧ 0 < k ∧
      req.Method = "POST" ∧ req.Path = c.ApiURL ++ "/" ++ c.Project ++ "/item") ∧
    (∃ req k, (runScenario env c).testCase.sent =
        (runScenario env c).suite.sent ++ List.replicate k req ∧ 0 < k ∧
      req.Method = "POST" ∧ req.Path = c.ApiURL ++ "/" ++ c.Project ++ "/item/" ++ S.Id) ∧
    (∃ req k p, (runScenario env c).log.sent =
        (runScenario env c).testCase.sent ++ List.replicate k req ∧ 0 < k ∧
      req.Body = .log p ∧ p.ItemId = C.Id ∧ p.Message = "msg") ∧
    (∃ req k, (runScenario env c).finishCase.sent =
        (runScenario env c).log.sent ++ List.replicate k req ∧ 0 < k ∧
      req.Method = "PUT" ∧ req.Path = c.ApiURL ++ "/" ++ c.Project ++ "/item/" ++ C.Id) ∧
    (∃ req k, (runScenario env c).finishSuite.sent =
        (runScenario env c).finishCase.sent ++ List.replicate k req ∧ 0 < k ∧
      req.Method = "PUT" ∧ req.Path = c.ApiURL ++ "/" ++ c.Project ++ "/item/" ++ S.Id) := by
  have e1 : (runScenario env c).launch = c.StartLaunch env [] "L" "" "" [] "DEFAULT" := rfl
  have e2 : (runScenario env c).suite = (runScenario env c).launch.client.StartTestItem env
      (runScenario env c).launch.sent "suite" "SUITE" "" "" [] [] := rfl
  have e3 : (runScenario env c).testCase = (runScenario env c).suite.client.StartTestItem env
      (runScenario env c).suite.sent "case" "TEST" "" "" [] [] := rfl
  have e4 : (runScenario env c).log = (runScenario env c).testCase.client.Log env
      (runScenario env c).testCase.sent "msg" "INFO" := rfl
  have e5 : (runScenario env c).finishCase = (runScenario env c).log.client.FinishTestItem env
      (runScenario env c).log.sent "PASSED" "" none := rfl
  have e6 : (runScenario env c).finishSuite =
      (runScenario env c).finishCase.client.FinishTestItem env
        (runScenario env c).finishCase.sent "PASSED" "" none := rfl
  have e7 : (runScenario env c).finishLaunch =
      (runScenario env c).finishSuite.client.FinishLaunch env
        (runScenario env c).finishSuite.sent "PASSED" "" := rfl
  have hd : (runScenario env c).depths =
      [(runScenario env c).launch.client.Stack.Len, (runScenario env c).suite.client.Stack.Len,
       (runScenario env c).testCase.client.Stack.Len, (runScenario env c).log.client.Stack.Len,
       (runScenario env c).finishCase.client.Stack.Len,
       (runScenario env c).finishSuite.client.Stack.Len,
       (runScenario env c).finishLaunch.client.Stack.Len] := rfl
  rw [hd]
  generalize runScenario env c = sc at *
  obtain ⟨s1, s2, s3, s4, s5, s6, s7⟩ := sc
  simp only at e1 e2 e3 e4 e5 e6 e7 hL hS hC hlog hF ⊢
  -- the client after each call
  rw [e1] at hL
  obtain ⟨hR, hc1⟩ := StartLaunch_client_of_success c env [] "L" "" "" [] "DEFAULT" L hL
  rw [← e1, hfresh] at hc1
  rw [e2] at hS
  have hc2 := StartTestItem_client_of_success _ env _ "suite" "SUITE" "" "" [] [] S hS
  rw [← e2, hc1] at hc2
  rw [e3] at hC
  have hc3 := StartTestItem_client_of_success _ env _ "case" "TEST" "" "" [] [] C hC
  rw [← e3, hc2] at hc3
  have hp3 : s3.client.Stack.Peek = some C.Id := by rw [hc3]; rfl
  obtain ⟨hc4, req4, k4, hsent4, hpos4, -, -, p4, hbody4, hid4, hmsg4, -⟩ :=
    Log_sent s3.client env s3.sent "msg" "INFO" C.Id hp3
  rw [← e4] at hc4 hsent4
  have hc5 := FinishTestItem_client s4.client env s4.sent "PASSED" "" none
  rw [← e5, hc4, hc3] at hc5
  have hc6 := FinishTestItem_client s5.client env s5.sent "PASSED" "" none
  rw [← e6, hc5] at hc6
  rw [e7] at hF
  have hc7 := FinishLaunch_client_of_success _ env _ "PASSED" "" F hF
  rw [← e7, hc6] at hc7
  -- the requests of each call
  obtain ⟨req2, k2, hsent2, hpos2, hm2, hroot2, -, -⟩ :=
    StartTestItem_sent s1.client env s1.sent "suite" "SUITE" "" "" [] []
  rw [← e2] at hsent2
  obtain ⟨req3, k3, hsent3, hpos3, hm3, -, hnest3, -⟩ :=
    StartTestItem_sent s2.client env s2.sent "case" "TEST" "" "" [] []
  rw [← e3] at hsent3
  obtain ⟨req5, k5, hsent5, hpos5, hm5, hpath5, hbody5⟩ :=
    FinishTestItem_sent s4.client env s4.sent "PASSED" "" none
  rw [← e5] at hsent5
  obtain ⟨req6, k6, hsent6, hpos6, hm6, hpath6, hbody6⟩ :=
    FinishTestItem_sent s5.client env s5.sent "PASSED" "" none
  rw [← e6] at hsent6
  refine ⟨?_, ⟨req2, k2, hsent2, hpos2 (by rw [hc1]; exact hR), hm2, ?_⟩,
    ⟨req3, k3, hsent3, hpos3 (by rw [hc2]; exact hR), hm3, ?_⟩,
    ⟨req4, k4, p4, hsent4, hpos4 (by rw [hc3]; exact hR), hbody4, hid4, hmsg4⟩,
    ⟨req5, k5, hsent5, hpos5 (by rw [hc4, hc3]; exact hR) (by rw [hbody5]; rfl), hm5, ?_⟩,
    ⟨req6, k6, hsent6, hpos6 (by rw [hc5]; exact hR) (by rw [hbody6]; rfl), hm6, ?_⟩⟩
  · rw [hc1, hc2, hc3, hc4, hc3, hc5, hc6, hc7]
    rfl
  · rw [hroot2 (by rw [hc1]; rfl), hc1]
  · rw [hnest3 S.Id (by rw [hc2]; rfl), hc2]
  · rw [hpath5, hc4, hc3]
    rfl
  · rw [hpath6, hc5]
    rfl

/-- C13 on a fresh client against a service that accepts every request and names each
item after its name: depths 1, 2, 3, 3, 2, 1, 0, and the seven requests in order. -/
theorem scenario_depths_and_targets_witness :
    sampleClient.Stack = [] ∧
    (runScenario (sampleEnv namingService) sampleClient).depths = [1, 2, 3, 3, 2, 1, 0] ∧
    (runScenario (sampleEnv namingService) sampleClient).finishLaunch.sent.map
        (fun req => (req.Method, req.Path)) =
      [("POST", "/api/v1/testproj/launch"), ("POST", "/api/v1/testproj/item"),
       ("POST", "/api/v1/testproj/item/suite_id"), ("POST", "/api/v1/testproj/log"),
       ("PUT", "/api/v1/testproj/item/case_id"), ("PUT", "/api/v1/testproj/item/suite_id"),
       ("PUT", "/api/v1/testproj/launch/done/finish")] :=
  have h := scenario_depths_and_targets (sampleEnv namingService) sampleClient
    { Id := "done" } { Id := "suite_id" } { Id := "case_id" } "done" { Id := "done" }
    rfl (by decide) (by decide) (by decide) (by decide) (by decide)
  ⟨rfl, h.1, by decide⟩

/-- The call `StartLaunch` pushes one root slot when it returns a nil error and leaves
the tracker as it was otherwise. -/
theorem StartLaunch_stack_cases (c : Client) (env : Env) (sent : List Request)
    (name description startTime : String) (tags : List String) (mode : String) :
    (succeeded (c.StartLaunch env sent name description startTime tags mode).out = true ∧
      (c.StartLaunch env sent name description startTime tags mode).client.Stack =
        none :: c.Stack) ∨
    (succeeded (c.StartLaunch env sent name description startTime tags mode).out = false ∧
      (c.StartLaunch env sent name description startTime tags mode).client.Stack =
        c.Stack) := by
  unfold Client.StartLaunch
  simp only [Client.newRequest, Payload.encodable, ↓reduceIte]
  split
  · exact Or.inr ⟨rfl, rfl⟩
  · exact Or.inr ⟨rfl, rfl⟩
  · refine Or.inl ⟨rfl, ?_⟩
    split_ifs <;> rfl

/-- The call `StartTestItem` pushes one slot when it returns a nil error and leaves the
tracker as it was otherwise. -/
theorem StartTestItem_stack_cases (c : Client) (env : Env) (sent : List Request)
    (name itemType startTime description : String) (tags : List String)
    (parameters : List (List (String × String))) :
    (succeeded (c.StartTestItem env sent name itemType startTime description tags
        parameters).out = true ∧
      ∃ id, (c.StartTestItem env sent name itemType startTime description tags
        parameters).client.Stack = some id :: c.Stack) ∨
    (succeeded (c.StartTestItem env sent name itemType startTime description tags
        parameters).out = false ∧
      (c.StartTestItem env sent name itemType startTime description tags
        parameters).client.Stack = c.Stack) := by
  unfold Client.StartTestItem
  simp only [Client.newRequest, Payload.encodable, ↓reduceIte]
  split
  · exact Or.inr ⟨rfl, rfl⟩
  · exact Or.inr ⟨rfl, rfl⟩
  · exact Or.inl ⟨rfl, _, rfl⟩

/-- The call `Log` leaves the client, tracker included, as it was, however it ends. -/
theorem Log_client (c : Client) (env : Env) (sent : List Request) (message level : String) :
    (c.Log env sent message level).client = c := by
  unfold Client.Log
  split
  · rfl
  · simp only [Client.newRequest, Payload.encodable, ↓reduceIte]
    split <;> rfl

/-- The call `FinishLaunch` removes the top slot, if there is one, when it returns a nil
error and leaves the tracker as it was otherwise. -/
theorem FinishLaunch_stack_cases (c : Client) (env : Env) (sent : List Request)
    (status endTime : String) :
    (succeeded (c.FinishLaunch env sent status endTime).out = true ∧
      (c.FinishLaunch env sent status endTime).client.Stack = c.Stack.drop 1) ∨
    (succeeded (c.FinishLaunch env sent status endTime).out = false ∧
      (c.FinishLaunch env sent status endTime).client.Stack = c.Stack) := by
  unfold Client.FinishLaunch
  by_cases hid : c.LaunchId = ""
  · simp [hid, succeeded]
  · simp only [hid, ↓reduceIte, Client.newRequest, Payload.encodable]
    split
    · exact Or.inr ⟨rfl, rfl⟩
    · exact Or.inr ⟨rfl, rfl⟩
    · refine Or.inl ⟨rfl, ?_⟩
      cases hs : c.Stack with
      | nil => simp [Stack.Len, hs]
      | cons top rest => simp [Stack.Len, Stack.Pop]

/-- A call that keeps the nesting order keeps the size bookkeeping. -/
theorem Session.apply_consistent (env : Env) (s : Session) (op : Op)
    (hs : s.consistent = true) (hop : s.allows op = true) :
    (s.apply env op).consistent = true := by
  obtain ⟨c, sent, phase, n⟩ := s
  cases op with
  | startLaunch name description startTime tags mode =>
    rcases StartLaunch_stack_cases c env sent name description startTime tags mode with
      ⟨hok, hst⟩ | ⟨hok, hst⟩
    · cases phase <;>
        simp_all [Session.apply, Session.consistent, Session.allows, Stack.Len]
    · cases phase <;>
        simp_all [Session.apply, Session.consistent, Session.allows, Stack.Len]
  | startTestItem a =>
    rcases StartTestItem_stack_cases c env sent a.name a.itemType a.startTime a.description
      a.tags a.parameters with ⟨hok, id, hst⟩ | ⟨hok, hst⟩
    · cases phase <;>
        simp_all [Session.apply, Session.consistent, Session.allows, Stack.Len]
    · cases phase <;>
        simp_all [Session.apply, Session.consistent, Session.allows, Stack.Len]
  | finishTestItem a =>
    have hcl := FinishTestItem_client c env sent a.status a.endTime a.issue
    cases phase <;>
      simp_all [Session.apply, Session.consistent, Session.allows, Stack.Len]
    omega
  | log message level =>
    have hcl := Log_client c env sent message level
    cases phase <;>
      simp_all [Session.apply, Session.consistent, Session.allows, Stack.Len]
  | finishLaunch status endTime =>
    rcases FinishLaunch_stack_cases c env sent status endTime with ⟨hok, hst⟩ | ⟨hok, hst⟩
    · cases phase <;>
        simp_all [Session.apply, Session.consistent, Session.allows, Stack.Len]
    · cases phase <;>
        simp_all [Session.apply, Session.consistent, Session.allows, Stack.Len]

/-- A well-nested sequence of calls keeps the size bookkeeping. -/
theorem Session.run_consistent (env : Env) (ops : List Op) :
    ∀ s : Session, s.consistent = true → Session.wellNested env ops s = true →
      (Session.run env ops s).consistent = true := by
  induction ops with
  | nil => intro s hs _; exact hs
  | cons op ops ih =>
    intro s hs hnest
    simp only [Session.wellNested, Bool.and_eq_true] at hnest
    exact ih _ (Session.apply_consistent env s op hs hnest.1) hnest.2

/-- C14, as the claim states it, fails: with every call accepted by the service, (1)
after `StartLaunch`, `StartTestItem`, `FinishLaunch` the launch is finished and the
tracker still holds one slot; (2) after two `StartLaunch` calls a launch is active with
no open item and the tracker holds two slots; (3) after `StartLaunch`,
`FinishTestItem` a launch is active and the tracker is empty; (4) after `StartLaunch`,
`FinishLaunch`, `StartTestItem` the launch is finished and the tracker holds one slot. -/
theorem size_invariant_fails_on_unordered_calls :
    (Session.run (sampleEnv namingService)
        [.startLaunch "L" "" "" [] "DEFAULT", .startTestItem ⟨"suite", "SUITE", "", "", [], []⟩,
         .finishLaunch "PASSED" ""] (Session.fresh sampleClient)).sizeInvariant = false ∧
    (Session.run (sampleEnv namingService)
        [.startLaunch "L" "" "" [] "DEFAULT", .startTestItem ⟨"suite", "SUITE", "", "", [], []⟩,
         .finishLaunch "PASSED" ""] (Session.fresh sampleClient)).phase = .finished ∧
    (Session.run (sampleEnv namingService)
        [.startLaunch "L" "" "" [] "DEFAULT", .startTestItem ⟨"suite", "SUITE", "", "", [], []⟩,
         .finishLaunch "PASSED" ""] (Session.fresh sampleClient)).client.Stack.Len = 1 ∧
    (Session.run (sampleEnv namingService)
        [.startLaunch "L" "" "" [] "DEFAULT", .startLaunch "L" "" "" [] "DEFAULT"]
        (Session.fresh sampleClient)).sizeInvariant = false ∧
    (Session.run (sampleEnv namingService)
        [.startLaunch "L" "" "" [] "DEFAULT", .finishTestItem ⟨"PASSED", "", none⟩]
        (Session.fresh sampleClient)).sizeInvariant = false ∧
    (Session.run (sampleEnv namingService)
        [.startLaunch "L" "" "" [] "DEFAULT", .finishLaunch "PASSED" "",
         .startTestItem ⟨"suite", "SUITE", "", "", [], []⟩]
        (Session.fresh sampleClient)).sizeInvariant = false := by
  decide

/-- C14 (amended): in every session reached from a client with an empty tracker by a
sequence of `StartLaunch`, `StartTestItem`, `FinishTestItem`, `Log` and `FinishLaunch`
calls that keeps the nesting order (no launch started while one is active, no item
started once the launch is finished, an item finished only while one is open, the launch
finished only while no item is open), whatever the remote outcomes, the size of the
tracker is the number of open items plus one while a launch is active and 0 once the
launch is finished. -/
theorem well_nested_sessions_keep_size_invariant (env : Env) (c : Client) (ops : List Op)
    (hfresh : c.Stack = [])
    (hnest : Session.wellNested env ops (Session.fresh c) = true) :
    (Session.run env ops (Session.fresh c)).sizeInvariant = true ∧
    ((Session.run env ops (Session.fresh c)).phase = .active →
      (Session.run env ops (Session.fresh c)).client.Stack.Len =
        (Session.run env ops (Session.fresh c)).openItems + 1) ∧
    ((Session.run env ops (Session.fresh c)).phase = .finished →
      (Session.run env ops (Session.fresh c)).client.Stack.Len = 0) := by
  have h0 : (Session.fresh c).consistent = true := by
    simp [Session.fresh, Session.consistent, Stack.Len, hfresh]
  have h := Session.run_consistent env ops (Session.fresh c) h0 hnest
  generalize Session.run env ops (Session.fresh c) = s at h
  obtain ⟨cl, sent, phase, n⟩ := s
  cases phase <;> simp_all [Session.consistent, Session.sizeInvariant]

/-- C14 (amended) on the scenario of the data model, a well-nested sequence: the session
ends with the launch finished and an empty tracker, and after the first three calls a
launch is active with two open items and three slots. -/
theorem well_nested_sessions_keep_size_invariant_witness :
    (Session.run (sampleEnv namingService)
        [.startLaunch "L" "" "" [] "DEFAULT", .startTestItem ⟨"suite", "SUITE", "", "", [], []⟩,
         .startTestItem ⟨"case", "TEST", "", "", [], []⟩, .log "msg" "INFO",
         .finishTestItem ⟨"PASSED", "", none⟩, .finishTestItem ⟨"PASSED", "", none⟩,
         .finishLaunch "PASSED" ""] (Session.fresh sampleClient)).sizeInvariant = true ∧
    (Session.run (sampleEnv namingService)
        [.startLaunch "L" "" "" [] "DEFAULT", .startTestItem ⟨"suite", "SUITE", "", "", [], []⟩,
         .startTestItem ⟨"case", "TEST", "", "", [], []⟩] (Session.fresh sampleClient)).phase
      = .active ∧
    (Session.run (sampleEnv namingService)
        [.startLaunch "L" "" "" [] "DEFAULT", .startTestItem ⟨"suite", "SUITE", "", "", [], []⟩,
         .startTestItem ⟨"case", "TEST", "", "", [], []⟩]
        (Session.fresh sampleClient)).client.Stack.Len = 2 + 1 :=
  have h1 := well_nested_sessions_keep_size_invariant (sampleEnv namingService) sampleClient
    [.startLaunch "L" "" "" [] "DEFAULT", .startTestItem ⟨"suite", "SUITE", "", "", [], []⟩,
     .startTestItem ⟨"case", "TEST", "", "", [], []⟩, .log "msg" "INFO",
     .finishTestItem ⟨"PASSED", "", none⟩, .finishTestItem ⟨"PASSED", "", none⟩,
     .finishLaunch "PASSED" ""] rfl (by decide)
  have h2 := well_nested_sessions_keep_size_invariant (sampleEnv namingService) sampleClient
    [.startLaunch "L" "" "" [] "DEFAULT", .startTestItem ⟨"suite", "SUITE", "", "", [], []⟩,
     .startTestItem ⟨"case", "TEST", "", "", [], []⟩] rfl (by decide)
  have hphase : (Session.run (sampleEnv namingService)
      [.startLaunch "L" "" "" [] "DEFAULT", .startTestItem ⟨"suite", "SUITE", "", "", [], []⟩,
       .startTestItem ⟨"case", "TEST", "", "", [], []⟩] (Session.fresh sampleClient)).phase
      = .active := by decide
  ⟨h1.1, hphase, h2.2.1 hphase⟩

end Rpgoclient
